import Mathlib

/-!
Read-only channel plugin: configuration store, differ and message gate.

A shallow embedding of `server/configuration.go`, `server/message_hooks.go`
and `server/plugin.go`.

Modelling conventions
* Go strings are byte sequences; the texts the plugin handles are UTF-8 and
  are modelled by `String`.  On well-formed UTF-8 a byte-wise substring
  search finds the same occurrences as a search character by character, which
  is how `strings.Contains` is embedded.
* A Go `map[string]string` is a finite map with pairwise distinct keys
  (`GoMap`).  `range` visits the entries in the order in which the
  association list stores them; every statement below quantifies over all
  maps, hence over every visiting order.
* Maps and `*configuration` are reference types.  Objects live in a `Heap`;
  a reference is an index into the heap, `none` is `nil`.  Allocation appends
  to the heap, so a fresh object never shares its address with a live one.
* The reader/writer lock is not modelled: every method is embedded as the
  sequential function it computes while holding the lock.
* A panic is modelled by `Except.error` carrying the panic message.
* The host (`p.API`, `p.Helpers`) is a record of operations over a host state:
  queries (`GetTeams`, `GetUserByUsername`, `GetChannelByNameForTeamName`,
  `LoadPluginConfiguration`) read the state, commands (`CreateUser`,
  `CreateTeamMember`, `EnsureBot`) also return the next state.  Every method
  that talks to the host returns the list of calls it made, in order.
-/

namespace ReadOnlyChannel

/-! ## Go maps -/

/-- The contents of a Go `map[string]string`. -/
abbrev GoMap := AList (fun _ : String => String)

/-- The builtin `make(map[string]string)`. -/
def GoMap.make : GoMap := ∅

/-- The assignment `m[key] = value`. -/
def GoMap.assign (m : GoMap) (key value : String) : GoMap := m.insert key value

/-- The builtin `delete(m, key)`. -/
def GoMap.delete (m : GoMap) (key : String) : GoMap := m.erase key

/-- The index expression `m[key]` in its two-result form (`none` when absent). -/
def GoMap.get (m : GoMap) (key : String) : Option String := m.lookup key

/-- Whether `value` is stored under some key of `m`. -/
def GoMap.hasValue (m : GoMap) (value : String) : Prop := ∃ key, m.get key = some value

/-! ## Strings -/

/-- The library function `strings.Contains(s, substr)` on character lists:
`substr` starts at some position of `s`. -/
def containsChars (substr : List Char) : List Char → Bool
  | [] => substr.isEmpty
  | c :: s => substr.isPrefixOf (c :: s) || containsChars substr s

/-- The library function `strings.Contains`. -/
def strings.Contains (s substr : String) : Bool := containsChars substr.data s.data

/-- The call `fmt.Sprintf("@%s", name)`. -/
def fmt.SprintfAt (name : String) : String := "@" ++ name

/-! ## Data model -/

/-- The fields of `model.Post` that the plugin reads or writes. -/
structure Post where
  UserId : String
  ChannelId : String
  Message : String
deriving DecidableEq, Repr

/-- The struct `configuration` of `configuration.go`.  The field
`readonlyChannelIDs` is a map reference (`none` is the nil map). -/
structure configuration where
  Username : String
  ChannelName : String
  TextStyle : String
  disabled : Bool
  readonlyUserID : String
  readonlyChannelIDs : Option Nat
deriving DecidableEq, Repr

/-- The zero value `configuration{}`. -/
def configuration.zero : configuration :=
  { Username := "", ChannelName := "", TextStyle := "", disabled := false,
    readonlyUserID := "", readonlyChannelIDs := none }

/-- The number of fields of the struct type `configuration`, which is what
`reflect.ValueOf(*configuration).NumField()` returns for every value. -/
def configuration.NumField : Nat := 6

/-- The store of map objects and configuration objects; an address is an
index into the corresponding list. -/
structure Heap where
  maps : List GoMap
  configs : List configuration

/-- Dereference of a `*configuration`. -/
def Heap.config (h : Heap) (a : Nat) : configuration :=
  (h.configs[a]?).getD configuration.zero

/-- The contents seen through a map reference; reading the nil map behaves
like reading an empty map. -/
def Heap.mapAt (h : Heap) (r : Option Nat) : GoMap :=
  match r with
  | none => ∅
  | some a => (h.maps[a]?).getD ∅

/-- Allocation of a map object holding `m`; returns the new heap and the
address of the object. -/
def Heap.newMap (h : Heap) (m : GoMap) : Heap × Nat :=
  ({ h with maps := h.maps ++ [m] }, h.maps.length)

/-- Allocation `&configuration{...}`. -/
def Heap.newConfig (h : Heap) (c : configuration) : Heap × Nat :=
  ({ h with configs := h.configs ++ [c] }, h.configs.length)

/-- The assignment `m[key] = value` through the map reference `a`. -/
def Heap.mapAssign (h : Heap) (a : Nat) (key value : String) : Heap :=
  { h with maps := h.maps.modify (fun m => m.assign key value) a }

/-- The statement `delete(m, key)` through the map reference `a`. -/
def Heap.mapDelete (h : Heap) (a : Nat) (key : String) : Heap :=
  { h with maps := h.maps.modify (fun m => m.delete key) a }

/-- The fields of `Plugin` (`plugin.go`) that the embedded methods use:
the guarded configuration pointer and the bot account id. -/
structure Plugin where
  configuration : Option Nat
  botID : String
deriving DecidableEq, Repr

/-- A later mutation of a map: an assignment (insertion or overwrite) or a
deletion. -/
inductive MapOp where
  | assign (key value : String)
  | delete (key : String)
deriving DecidableEq, Repr

/-- One mutation through the map reference `a`. -/
def Heap.mapApply (h : Heap) (a : Nat) : MapOp → Heap
  | .assign key value => h.mapAssign a key value
  | .delete key => h.mapDelete a key

/-- A sequence of mutations through the map reference `a`, in order. -/
def Heap.mapApplyAll (h : Heap) (a : Nat) (ops : List MapOp) : Heap :=
  ops.foldl (fun hh op => hh.mapApply a op) h

/-! ## Configuration store (`configuration.go`) -/

/-- The method `(*configuration).Clone`: allocate a new map, copy every entry
of the receiver's map into it, and allocate a new configuration object that
carries the receiver's scalar fields and the new map. -/
def configuration.Clone (h : Heap) (c : Nat) : Heap × Nat :=
  let src := h.config c
  let (h1, readonlyChannelIDs) := h.newMap GoMap.make
  let h2 := (h.mapAt src.readonlyChannelIDs).entries.foldl
    (fun hh e => hh.mapAssign readonlyChannelIDs e.1 e.2) h1
  h2.newConfig
    { Username := src.Username
      ChannelName := src.ChannelName
      TextStyle := src.TextStyle
      disabled := src.disabled
      readonlyUserID := src.readonlyUserID
      readonlyChannelIDs := some readonlyChannelIDs }

/-- The method `Plugin.getConfiguration`: the active configuration, or a
freshly allocated zero value when none was set. -/
def Plugin.getConfiguration (h : Heap) (p : Plugin) : Heap × Nat :=
  match p.configuration with
  | none => h.newConfig configuration.zero
  | some a => (h, a)

/-- The snapshot that `getConfiguration` hands to its caller. -/
def Plugin.activeSnapshot (h : Heap) (p : Plugin) : ReadOnlyChannel.configuration :=
  (p.getConfiguration h).1.config (p.getConfiguration h).2

/-- The map behind the `readonlyChannelIDs` field of the snapshot that
`getConfiguration` hands to its caller. -/
def Plugin.activeChannelIDs (h : Heap) (p : Plugin) : GoMap :=
  (p.getConfiguration h).1.mapAt (p.activeSnapshot h).readonlyChannelIDs

/-- The message of the panic raised by `setConfiguration`. -/
def setConfigurationPanic : String :=
  "setConfiguration called with the existing configuration"

/-- The method `Plugin.setConfiguration`; `Except.error` is the panic. -/
def Plugin.setConfiguration (p : Plugin) (configuration : Option Nat) :
    Except String Plugin :=
  if configuration ≠ none ∧ p.configuration = configuration then
    if ReadOnlyChannel.configuration.NumField = 0 then
      .ok p
    else
      .error setConfigurationPanic
  else
    .ok { p with configuration := configuration }

/-- The change-set `configurationDiff` that `Plugin.diffConfiguration` builds
from the old (active) and the new configuration before it inspects the teams. -/
def configurationDiff (oldConfiguration newConfiguration : configuration) : GoMap :=
  let d0 := GoMap.make
  let d1 := if newConfiguration.Username ≠ oldConfiguration.Username then
      d0.assign "username" newConfiguration.Username else d0
  let d2 := if newConfiguration.ChannelName ≠ oldConfiguration.ChannelName then
      d1.assign "channel_name" newConfiguration.ChannelName else d1
  let d3 := if newConfiguration.TextStyle ≠ oldConfiguration.TextStyle then
      d2.assign "text_style" newConfiguration.ChannelName else d2
  d3

/-! ## Message gate (`message_hooks.go`) -/

/-- The constant `plugin.DismissPostError` of the host's plugin package. -/
def plugin.DismissPostError : String := "plugin.message_will_be_posted.dismiss_post"

/-- The host operations used by the message gate.  `SendEphemeralPost`
returns the post as delivered (`none` is nil); the gate discards it. -/
structure API where
  SendEphemeralPost : String → Post → Option Post

/-- What one call of the hook produces: the returned post (`none` is nil),
the returned rejection string, and the ephemeral notices sent, each with the
user it is addressed to. -/
structure HookResult where
  post : Option Post
  reason : String
  sent : List (String × Post)
deriving DecidableEq, Repr

/-- The loop over `configuration.readonlyChannelIDs`: at the first entry whose
channel id is the one of the post, send the notice and reject; `none` when the
loop runs to its end. -/
def rangeReadonlyChannels (api : API) (cfg : configuration) (post : Post) :
    List (Sigma fun _ : String => String) → Option HookResult
  | [] => none
  | e :: rest =>
    let channelID := e.2
    if channelID = post.ChannelId then
      let notice : Post :=
        { UserId := cfg.readonlyUserID
          ChannelId := channelID
          Message := "Posting is not allowed in this channel." }
      let _ := api.SendEphemeralPost post.UserId notice
      some { post := none, reason := plugin.DismissPostError,
             sent := [(post.UserId, notice)] }
    else
      rangeReadonlyChannels api cfg post rest

/-- The hook `Plugin.MessageWillBePosted`. -/
def Plugin.MessageWillBePosted (api : API) (h : Heap) (p : Plugin) (post : Post) :
    HookResult :=
  let configuration := p.activeSnapshot h
  if configuration.disabled then
    { post := some post, reason := "", sent := [] }
  else if post.UserId = p.botID ∨ post.UserId = configuration.readonlyUserID then
    { post := some post, reason := "", sent := [] }
  else
    match rangeReadonlyChannels api configuration post (p.activeChannelIDs h).entries with
    | some r => r
    | none =>
      if strings.Contains post.Message (fmt.SprintfAt configuration.Username) then
        let notice : Post :=
          { UserId := configuration.readonlyUserID
            ChannelId := post.ChannelId
            Message := "Shh! You must not talk about the read-only plugin user." }
        let _ := api.SendEphemeralPost post.UserId notice
        { post := none, reason := plugin.DismissPostError,
          sent := [(post.UserId, notice)] }
      else
        { post := some post, reason := "", sent := [] }

/-! ## Host operations used by reconciliation -/

/-- The fields of `model.User` that the plugin reads or writes. -/
structure User where
  Id : String
  Username : String
  Password : String
  Email : String
  Nickname : String
  FirstName : String
  Position : String
deriving DecidableEq, Repr

/-- The fields of `model.Team` that the plugin reads. -/
structure Team where
  Id : String
  Name : String
deriving DecidableEq, Repr

/-- The field of `model.Channel` that the plugin reads. -/
structure Channel where
  Id : String
deriving DecidableEq, Repr

/-- The fields of `model.Bot` that the plugin writes. -/
structure Bot where
  Username : String
  DisplayName : String
  Description : String
deriving DecidableEq, Repr

/-- The public fields of `configuration`, which are the ones that
`LoadPluginConfiguration` fills in; a field missing from the server
configuration keeps its zero value, the empty string. -/
structure Settings where
  Username : String
  ChannelName : String
  TextStyle : String
deriving DecidableEq, Repr

/-- The host (`p.API` and `p.Helpers`) as seen by reconciliation, over a host
state `σ`.  Queries read the state; commands also return the next state.  An
error is a `String`.  Where the plugin ignores the error result of a call the
two results are kept apart (`Option` value and `Option` error); where it tests
the error first, the call is an `Except`. -/
structure Host (σ : Type) where
  LoadPluginConfiguration : σ → Except String Settings
  GetUserByUsername : σ → String → Option User × Option String
  CreateUser : σ → User → Except String User × σ
  GetTeams : σ → Except String (List Team)
  CreateTeamMember : σ → String → String → Option String × σ
  GetChannelByNameForTeamName : σ → String → String → Bool → Option Channel × Option String
  EnsureBot : σ → Bot → String → Except String String × σ

/-- One call made to the host. -/
inductive Call where
  | LoadPluginConfiguration
  | GetUserByUsername (name : String)
  | CreateUser (user : User)
  | GetTeams
  | CreateTeamMember (teamId userId : String)
  | GetChannelByNameForTeamName (teamName channelName : String) (includeDeleted : Bool)
  | EnsureBot (bot : Bot) (iconPath : String)
  | LogWarn (msg : String) (keyValuePairs : List String)
deriving DecidableEq, Repr

/-- Whether a call is a `CreateUser`. -/
def Call.isCreateUser : Call → Bool
  | .CreateUser _ => true
  | _ => false

/-- Whether a call is a `CreateTeamMember`. -/
def Call.isCreateTeamMember : Call → Bool
  | .CreateTeamMember _ _ => true
  | _ => false

/-- The function `errors.Wrap(err, message)`: the text of the wrapped error. -/
def errors.Wrap (err message : String) : String := message ++ ": " ++ err

/-- The assignment of fields through a `*configuration`. -/
def Heap.setConfig (h : Heap) (a : Nat) (f : configuration → configuration) : Heap :=
  { h with configs := h.configs.modify f a }

/-- What a step of reconciliation leaves behind: the host state, the calls
made in order, and the value returned. -/
structure Run (σ : Type) (α : Type) where
  host : σ
  calls : List Call
  value : α

/-- The user that `ensureROUser` asks the host to create. -/
def roUser (username : String) : User :=
  { Id := "", Username := username, Password := "ROUserPassword1",
    Email := "rouser@zapatva.com", Nickname := "ROUser", FirstName := "ROUser",
    Position := "Bot" }

/-- The tail of `ensureROUser` once `user` is known: list the teams, add a
member to each with the id held in `configuration.readonlyUserID`, and return
`user.Id`. -/
def ensureROUser.teams {σ : Type} (api : Host σ) (s : σ) (calls : List Call)
    (readonlyUserID : String) (user : User) : Run σ (Except String String) :=
  match api.GetTeams s with
  | .error err => { host := s, calls := calls ++ [Call.GetTeams], value := .error err }
  | .ok teams =>
    { host := teams.foldl (fun st team => (api.CreateTeamMember st team.Id readonlyUserID).2) s
      calls := calls ++ [Call.GetTeams] ++
        teams.map (fun team => Call.CreateTeamMember team.Id readonlyUserID)
      value := .ok user.Id }

/-- The method `Plugin.ensureROUser`, called with the configuration object at
address `configuration`. -/
def Plugin.ensureROUser {σ : Type} (api : Host σ) (s : σ) (h : Heap) (configuration : Nat) :
    Run σ (Except String String) :=
  let cfg := h.config configuration
  let calls := [Call.GetUserByUsername cfg.Username]
  match (api.GetUserByUsername s cfg.Username).1 with
  | some user => ensureROUser.teams api s calls cfg.readonlyUserID user
  | none =>
    match api.CreateUser s (roUser cfg.Username) with
    | (.error err, s1) =>
      { host := s1, calls := calls ++ [Call.CreateUser (roUser cfg.Username)],
        value := .error err }
    | (.ok user, s1) =>
      ensureROUser.teams api s1 (calls ++ [Call.CreateUser (roUser cfg.Username)])
        cfg.readonlyUserID user

/-- One round of the loop of `ensureROChannels`: look the channel up by the
team name and, when one is returned, store its id under the team id. -/
def ensureROChannels.step {σ : Type} (api : Host σ) (s : σ) (channelName : String)
    (readonlyChannelIDs : Nat) (h : Heap) (team : Team) : Heap :=
  match (api.GetChannelByNameForTeamName s team.Name channelName false).1 with
  | some channel => h.mapAssign readonlyChannelIDs team.Id channel.Id
  | none => h

/-- The contents of the new map after one round of the loop of
`ensureROChannels`. -/
def ensureROChannels.collect {σ : Type} (api : Host σ) (s : σ) (channelName : String)
    (m : GoMap) (team : Team) : GoMap :=
  match (api.GetChannelByNameForTeamName s team.Name channelName false).1 with
  | some channel => m.assign team.Id channel.Id
  | none => m

/-- The method `Plugin.ensureROChannels`: the heap afterwards, the calls made,
and the returned map reference (`none` is nil) or error. -/
def Plugin.ensureROChannels {σ : Type} (api : Host σ) (s : σ) (h : Heap)
    (configuration : Nat) : Heap × List Call × Except String (Option Nat) :=
  match api.GetTeams s with
  | .error err => (h, [Call.GetTeams], .error err)
  | .ok teams =>
    let (h1, readonlyChannelIDs) := h.newMap GoMap.make
    let channelName := (h.config configuration).ChannelName
    (teams.foldl (ensureROChannels.step api s channelName readonlyChannelIDs) h1,
     Call.GetTeams :: teams.map
       (fun team => Call.GetChannelByNameForTeamName team.Name channelName false),
     .ok (some readonlyChannelIDs))

/-- The method `Plugin.diffConfiguration`: the heap afterwards and the calls
made.  The marshalling of the new configuration, a struct of three strings,
cannot fail and has no effect. -/
def Plugin.diffConfiguration {σ : Type} (api : Host σ) (s : σ) (h : Heap) (p : Plugin)
    (newConfiguration : Nat) : Heap × List Call :=
  let (h1, oldConfiguration) := p.getConfiguration h
  let diff := configurationDiff (h1.config oldConfiguration) (h1.config newConfiguration)
  if diff.entries.length = 0 then
    (h1, [])
  else
    match api.GetTeams s with
    | .error err =>
      (h1, [Call.GetTeams, Call.LogWarn "failed to query teams OnConfigChange" ["err", err]])
    | .ok teams =>
      (h1, Call.GetTeams ::
        (teams.filter (fun team =>
            ((h1.mapAt (h1.config newConfiguration).readonlyChannelIDs).get team.Id).isNone)).map
          (fun team => Call.LogWarn "No read-only channel id for team" ["team", team.Id]))

/-- The state in which a call of `OnConfigurationChange` ends: host state,
heap, plugin fields, the calls made, and the returned error (`none` is nil). -/
structure Outcome (σ : Type) where
  host : σ
  heap : Heap
  plugin : Plugin
  calls : List Call
  err : Option String

/-- The bot that `OnConfigurationChange` asks the host to ensure. -/
def readonlyBot : Bot :=
  { Username := "readonlybot", DisplayName := "Read-only Bot",
    Description := "A bot account created by the read-only plugin." }

/-- The method `Plugin.OnConfigurationChange`; `Except.error` is a panic of
`setConfiguration`. -/
def Plugin.OnConfigurationChange {σ : Type} (api : Host σ) (s : σ) (h : Heap) (p : Plugin) :
    Except String (Outcome σ) :=
  let (h0, configuration) := h.newConfig configuration.zero
  match api.LoadPluginConfiguration s with
  | .error loadConfigErr =>
    .ok { host := s, heap := h0, plugin := p, calls := [Call.LoadPluginConfiguration],
          err := some (errors.Wrap loadConfigErr "failed to load plugin configuration") }
  | .ok st =>
    let h1 := h0.setConfig configuration (fun x =>
      { x with Username := st.Username, ChannelName := st.ChannelName,
               TextStyle := st.TextStyle })
    let user := Plugin.ensureROUser api s h1 configuration
    let calls1 := Call.LoadPluginConfiguration :: user.calls
    match user.value with
    | .error err =>
      .ok { host := user.host
            heap := h1.setConfig configuration (fun x => { x with readonlyUserID := "" })
            plugin := p, calls := calls1
            err := some (errors.Wrap err "failed to ensure read-only user") }
    | .ok readonlyUserID =>
      let h2 := h1.setConfig configuration (fun x => { x with readonlyUserID := readonlyUserID })
      let calls2 := calls1 ++ [Call.EnsureBot readonlyBot "/assets/github.svg"]
      match api.EnsureBot user.host readonlyBot "/assets/github.svg" with
      | (.error ensureBotError, s2) =>
        .ok { host := s2, heap := h2, plugin := p, calls := calls2
              err := some (errors.Wrap ensureBotError "failed to ensure demo bot.") }
      | (.ok botID, s2) =>
        let p1 : Plugin := { p with botID := botID }
        match Plugin.ensureROChannels api s2 h2 configuration with
        | (h3, calls3, .error err) =>
          .ok { host := s2
                heap := h3.setConfig configuration (fun x => { x with readonlyChannelIDs := none })
                plugin := p1, calls := calls2 ++ calls3
                err := some (errors.Wrap err "failed to ensure demo channels") }
        | (h3, calls3, .ok readonlyChannelIDs) =>
          let h4 := h3.setConfig configuration
            (fun x => { x with readonlyChannelIDs := readonlyChannelIDs })
          let (h5, calls4) := Plugin.diffConfiguration api s2 h4 p1 configuration
          match p1.setConfiguration (some configuration) with
          | .error msg => .error msg
          | .ok p2 =>
            .ok { host := s2, heap := h5, plugin := p2, calls := calls2 ++ calls3 ++ calls4,
                  err := none }

/-- The configuration object that `OnConfigurationChange` holds after
`new(configuration)` and a successful load: the loaded public fields, all
other fields at their zero value. -/
def freshConfiguration (st : Settings) : configuration :=
  { Username := st.Username, ChannelName := st.ChannelName, TextStyle := st.TextStyle,
    disabled := false, readonlyUserID := "", readonlyChannelIDs := none }

/-- The run of `ensureROUser` that `OnConfigurationChange` starts after it
loaded `st` in the host state `s`. -/
def OnConfigurationChange.userRun {σ : Type} (api : Host σ) (s : σ) (st : Settings) :
    Run σ (Except String String) :=
  Plugin.ensureROUser api s { maps := [], configs := [freshConfiguration st] } 0

/-- The method `Plugin.setEnabled`; `Except.error` is a panic of
`setConfiguration`. -/
def Plugin.setEnabled (h : Heap) (p : Plugin) (enabled : Bool) : Except String (Heap × Plugin) :=
  let (h1, active) := p.getConfiguration h
  let (h2, configuration) := configuration.Clone h1 active
  let h3 := h2.setConfig configuration (fun x => { x with disabled := !enabled })
  match p.setConfiguration (some configuration) with
  | .error msg => .error msg
  | .ok p1 => .ok (h3, p1)

/-! ## Concrete states used in the examples -/

/-- A host whose notice delivery returns nothing. -/
def exAPI : API := { SendEphemeralPost := fun _ _ => none }

/-- A configured snapshot whose channel map is the map object at address 0. -/
def exConfig : configuration :=
  { Username := "robot", ChannelName := "announcements", TextStyle := "plain",
    disabled := false, readonlyUserID := "u-robot", readonlyChannelIDs := some 0 }

/-- The map `{"team-a": "chan-a"}`. -/
def exMap : GoMap := GoMap.make.assign "team-a" "chan-a"

/-- A heap with one map object and two field-equal configuration objects. -/
def exHeap : Heap := { maps := [exMap], configs := [exConfig, exConfig] }

/-- A plugin whose active configuration is the object at address 0. -/
def exPlugin : Plugin := { configuration := some 0, botID := "u-bot" }

/-- A heap whose only configuration object is the zero value. -/
def exZeroHeap : Heap := { maps := [], configs := [configuration.zero] }

/-- A plugin whose active configuration is the object at address 0 and whose
bot id was never set. -/
def exZeroPlugin : Plugin := { configuration := some 0, botID := "" }

/-- A plugin on which no configuration was ever set. -/
def exFreshPlugin : Plugin := { configuration := none, botID := "" }

/-- The snapshot `exConfig` with another text style. -/
def exRestyled : configuration := { exConfig with TextStyle := "bold" }

/-- A directory: its users, its teams, its channels (team name, channel name,
channel id) and its team members (team id, user id). -/
structure Directory where
  users : List User
  teams : List Team
  channels : List (String × String × String)
  members : List (String × String)
deriving DecidableEq, Repr

/-- A host over a `Directory`: the configured names are "robot" and
"announcements", a user can be created when its name is not taken and then
gets the id "id-" followed by its name, and the bot has the id "u-bot". -/
def exHost : Host Directory :=
  { LoadPluginConfiguration := fun _ =>
      .ok { Username := "robot", ChannelName := "announcements", TextStyle := "plain" }
    GetUserByUsername := fun d name => (d.users.find? (fun u => u.Username = name), none)
    CreateUser := fun d u =>
      if (d.users.find? (fun x => x.Username = u.Username)).isSome then
        (.error "a user with that name exists", d)
      else
        (.ok { u with Id := "id-" ++ u.Username },
         { d with users := d.users ++ [{ u with Id := "id-" ++ u.Username }] })
    GetTeams := fun d => .ok d.teams
    CreateTeamMember := fun d t u => (none, { d with members := d.members ++ [(t, u)] })
    GetChannelByNameForTeamName := fun d t c _ =>
      ((d.channels.find? (fun x => x.1 = t ∧ x.2.1 = c)).map (fun x => { Id := x.2.2 }), none)
    EnsureBot := fun d _ _ => (.ok "u-bot", d) }

/-- Two teams, of which only the first has a channel "announcements"; the
user "robot" exists with the id "u-robot". -/
def exDirectory : Directory :=
  { users := [{ roUser "robot" with Id := "u-robot" }]
    teams := [{ Id := "team-a", Name := "a" }, { Id := "team-b", Name := "b" }]
    channels := [("a", "announcements", "chan-a"), ("b", "general", "chan-g")]
    members := [] }

/-- The directory `exDirectory` without any user. -/
def exDirectoryNoUser : Directory := { exDirectory with users := [] }

/-- The empty heap. -/
def exEmptyHeap : Heap := { maps := [], configs := [] }

/-- The state in which a run ends; a panic is recorded as an error at the
host state `s`, on the empty heap. -/
def exRun {σ : Type} (s : σ) (r : Except String (Outcome σ)) : Outcome σ :=
  match r with
  | .ok out => out
  | .error msg =>
    { host := s, heap := { maps := [], configs := [] },
      plugin := { configuration := none, botID := "" }, calls := [], err := some msg }

/-- The first reconciliation on the directory without the user "robot". -/
def exFirstRun : Outcome Directory :=
  exRun exDirectoryNoUser
    (Plugin.OnConfigurationChange exHost exDirectoryNoUser exEmptyHeap exFreshPlugin)

/-- The reconciliation that follows `exFirstRun`. -/
def exSecondRun : Outcome Directory :=
  exRun exFirstRun.host
    (Plugin.OnConfigurationChange exHost exFirstRun.host exFirstRun.heap exFirstRun.plugin)

/-- A host over a `Directory` and a count of the `EnsureBot` calls served so
far.  It answers like `exHost`, except that a channel lookup returns no
channel and the error "lookup timed out" until `EnsureBot` was served twice.
No call changes the teams or the channels of the directory. -/
def exFlakyHost : Host (Directory × Nat) :=
  { LoadPluginConfiguration := fun s => exHost.LoadPluginConfiguration s.1
    GetUserByUsername := fun s name => exHost.GetUserByUsername s.1 name
    CreateUser := fun s u => ((exHost.CreateUser s.1 u).1, ((exHost.CreateUser s.1 u).2, s.2))
    GetTeams := fun s => exHost.GetTeams s.1
    CreateTeamMember := fun s t u =>
      ((exHost.CreateTeamMember s.1 t u).1, ((exHost.CreateTeamMember s.1 t u).2, s.2))
    GetChannelByNameForTeamName := fun s t c d =>
      if s.2 < 2 then (none, some "lookup timed out")
      else exHost.GetChannelByNameForTeamName s.1 t c d
    EnsureBot := fun s _ _ => (.ok "u-bot", (s.1, s.2 + 1)) }

/-- The first reconciliation on `exFlakyHost`, started on `exDirectory`. -/
def exFlakyFirstRun : Outcome (Directory × Nat) :=
  exRun (exDirectory, 0)
    (Plugin.OnConfigurationChange exFlakyHost (exDirectory, 0) exEmptyHeap exFreshPlugin)

/-- The reconciliation that follows `exFlakyFirstRun`. -/
def exFlakySecondRun : Outcome (Directory × Nat) :=
  exRun exFlakyFirstRun.host
    (Plugin.OnConfigurationChange exFlakyHost exFlakyFirstRun.host exFlakyFirstRun.heap
      exFlakyFirstRun.plugin)

end ReadOnlyChannel

namespace ReadOnlyChannel

/-! ## Auxiliary facts -/

/-- The search `containsChars` decides the infix relation on character lists. -/
theorem containsChars_iff (substr s : List Char) :
    containsChars substr s = true ↔ substr <:+: s := by
  induction s with
  | nil => simp [containsChars, List.isEmpty_iff]
  | cons c s ih =>
    simp only [containsChars, Bool.or_eq_true, ih, List.infix_cons_iff]
    simp

/-- The embedded `strings.Contains` holds exactly when the characters of
`substr` occur consecutively in `s`. -/
theorem strings_Contains_iff (s substr : String) :
    strings.Contains s substr = true ↔ substr.data <:+: s.data :=
  containsChars_iff substr.data s.data

/-- A value is stored in a map exactly when some entry carries it. -/
theorem hasValue_iff_entry (m : GoMap) (v : String) :
    m.hasValue v ↔ ∃ e ∈ m.entries, e.2 = v := by
  constructor
  · rintro ⟨k, hk⟩
    exact ⟨⟨k, v⟩, AList.mem_lookup_iff.mp hk, rfl⟩
  · rintro ⟨⟨k, w⟩, he, rfl⟩
    exact ⟨k, AList.mem_lookup_iff.mpr he⟩

/-- The loop rejects with the channel notice as soon as some entry carries the
channel of the post. -/
theorem rangeReadonlyChannels_hit (api : API) (cfg : configuration) (post : Post)
    (l : List (Sigma fun _ : String => String)) (hl : ∃ e ∈ l, e.2 = post.ChannelId) :
    rangeReadonlyChannels api cfg post l =
      some { post := none, reason := plugin.DismissPostError,
             sent := [(post.UserId,
               { UserId := cfg.readonlyUserID, ChannelId := post.ChannelId,
                 Message := "Posting is not allowed in this channel." })] } := by
  induction l with
  | nil => simp at hl
  | cons e rest ih =>
    by_cases he : e.2 = post.ChannelId
    · simp [rangeReadonlyChannels, he]
    · have hr : ∃ x ∈ rest, x.2 = post.ChannelId := by
        obtain ⟨x, hx, hxe⟩ := hl
        rcases List.mem_cons.mp hx with rfl | hx
        · exact absurd hxe he
        · exact ⟨x, hx, hxe⟩
      simp [rangeReadonlyChannels, he, ih hr]

/-- The loop runs to its end when no entry carries the channel of the post. -/
theorem rangeReadonlyChannels_miss (api : API) (cfg : configuration) (post : Post)
    (l : List (Sigma fun _ : String => String)) (hl : ¬ ∃ e ∈ l, e.2 = post.ChannelId) :
    rangeReadonlyChannels api cfg post l = none := by
  induction l with
  | nil => rfl
  | cons e rest ih =>
    have he : e.2 ≠ post.ChannelId := fun he => hl ⟨e, List.mem_cons_self _ _, he⟩
    have hr : ¬ ∃ x ∈ rest, x.2 = post.ChannelId := fun ⟨x, hx, hxe⟩ =>
      hl ⟨x, List.mem_cons_of_mem _ hx, hxe⟩
    simp [rangeReadonlyChannels, he, ih hr]

/-- The keys of a map after an assignment. -/
theorem mem_assign_iff (m : GoMap) (a b k : String) :
    k ∈ m.assign a b ↔ k = a ∨ k ∈ m := AList.mem_insert m

/-- A new map has no key. -/
theorem not_mem_make (k : String) : ¬ k ∈ GoMap.make := AList.not_mem_empty k

/-- Modifying the last cell of a list. -/
theorem modify_concat_length {α : Type} (f : α → α) (pre : List α) (m : α) :
    (pre ++ [m]).modify f pre.length = pre ++ [f m] := by
  induction pre with
  | nil => simp
  | cons a t ih => simp [ih]

/-- Copying the entries of a list with distinct keys into a map, one
assignment per entry: the result maps a key of the list to its value there and
any other key to what the map held before. -/
theorem foldl_assign_get (l : List (Sigma fun _ : String => String)) (hl : l.NodupKeys)
    (m : GoMap) (k : String) :
    (l.foldl (fun acc e => acc.assign e.1 e.2) m).get k =
      (match l.dlookup k with
       | some v => some v
       | none => m.get k) := by
  induction l generalizing m with
  | nil => simp
  | cons e t ih =>
    obtain ⟨hnot, ht⟩ := List.nodupKeys_cons.mp hl
    rw [List.foldl_cons, ih ht]
    by_cases hk : k = e.1
    · subst hk
      have hnone : t.dlookup e.1 = none := List.dlookup_eq_none.mpr hnot
      have hsome : List.dlookup e.1 (e :: t) = some e.2 := by
        cases e with
        | mk a b => exact List.dlookup_cons_eq _ _ _
      simp [hnone, hsome, GoMap.get, GoMap.assign]
    · have hcons : List.dlookup k (e :: t) = List.dlookup k t := by
        cases e with
        | mk a b => exact List.dlookup_cons_ne _ _ hk
      rw [hcons]
      simp [GoMap.get, GoMap.assign, AList.lookup_insert_ne hk]

/-- The copy loop of `Clone`, run on a heap whose last map object is the
target, only rewrites that object. -/
theorem foldl_mapAssign_last (pre : List GoMap) (cfgs : List configuration)
    (l : List (Sigma fun _ : String => String)) (m : GoMap) :
    l.foldl (fun hh e => hh.mapAssign pre.length e.1 e.2)
        ({ maps := pre ++ [m], configs := cfgs } : Heap) =
      { maps := pre ++ [l.foldl (fun acc e => acc.assign e.1 e.2) m], configs := cfgs } := by
  induction l generalizing m with
  | nil => rfl
  | cons e t ih =>
    rw [List.foldl_cons, List.foldl_cons]
    have hstep : Heap.mapAssign { maps := pre ++ [m], configs := cfgs } pre.length e.1 e.2 =
        { maps := pre ++ [m.assign e.1 e.2], configs := cfgs } := by
      simp [Heap.mapAssign, modify_concat_length]
    rw [hstep, ih]

/-- The heap and the address that `Clone` returns, in closed form. -/
theorem Clone_eq (h : Heap) (c : Nat) :
    configuration.Clone h c =
      ({ maps := h.maps ++ [(h.mapAt (h.config c).readonlyChannelIDs).entries.foldl
            (fun acc e => acc.assign e.1 e.2) GoMap.make],
         configs := h.configs ++
          [{ Username := (h.config c).Username
             ChannelName := (h.config c).ChannelName
             TextStyle := (h.config c).TextStyle
             disabled := (h.config c).disabled
             readonlyUserID := (h.config c).readonlyUserID
             readonlyChannelIDs := some h.maps.length }] },
       h.configs.length) := by
  simp only [configuration.Clone, Heap.newMap, Heap.newConfig]
  rw [foldl_mapAssign_last]

/-- Mutations through the reference to the last map object of a heap leave
every other object as it is. -/
theorem mapApplyAll_last (pre : List GoMap) (cfgs : List configuration)
    (ops : List MapOp) (m : GoMap) :
    ∃ m2, Heap.mapApplyAll { maps := pre ++ [m], configs := cfgs } pre.length ops =
      { maps := pre ++ [m2], configs := cfgs } := by
  induction ops generalizing m with
  | nil => exact ⟨m, rfl⟩
  | cons op t ih =>
    cases op with
    | assign key value =>
      obtain ⟨m2, hm2⟩ := ih (m.assign key value)
      refine ⟨m2, ?_⟩
      rw [← hm2]
      simp [Heap.mapApplyAll, Heap.mapApply, Heap.mapAssign, modify_concat_length]
    | delete key =>
      obtain ⟨m2, hm2⟩ := ih (m.delete key)
      refine ⟨m2, ?_⟩
      rw [← hm2]
      simp [Heap.mapApplyAll, Heap.mapApply, Heap.mapDelete, modify_concat_length]

/-- Reading the reference to the last map object. -/
theorem mapAt_last (pre : List GoMap) (cfgs : List configuration) (m : GoMap) :
    Heap.mapAt { maps := pre ++ [m], configs := cfgs } (some pre.length) = m := by
  simp [Heap.mapAt]

/-- Reading a map reference that was valid before an object was appended. -/
theorem mapAt_append (pre : List GoMap) (cfgs1 cfgs2 : List configuration) (m : GoMap)
    (r : Option Nat) (hr : ∀ a, r = some a → a < pre.length) :
    Heap.mapAt { maps := pre ++ [m], configs := cfgs1 } r =
      Heap.mapAt { maps := pre, configs := cfgs2 } r := by
  cases r with
  | none => rfl
  | some a =>
    have ha : a < pre.length := hr a rfl
    simp [Heap.mapAt, List.getElem?_append_left ha]

/-- Reading a configuration pointer that was valid before an object was
appended. -/
theorem config_append (maps1 maps2 : List GoMap) (cfgs : List configuration)
    (x : configuration) (c : Nat) (hc : c < cfgs.length) :
    Heap.config { maps := maps1, configs := cfgs ++ [x] } c =
      Heap.config { maps := maps2, configs := cfgs } c := by
  simp [Heap.config, List.getElem?_append_left hc]

/-! ## Message gate -/

/-- C1: with the policy enabled, a post by an author who is neither the bot nor
the read-only user, into a channel that is a value of `readonlyChannelIDs`, is
rejected: no post is returned, the rejection string is
`plugin.DismissPostError`, and the one notice sent has the text "Posting is not
allowed in this channel."; the body of the post plays no role. -/
theorem managed_channel_post_rejected (api : API) (h : Heap) (p : Plugin) (post : Post)
    (hen : (p.activeSnapshot h).disabled = false)
    (hbot : post.UserId ≠ p.botID)
    (husr : post.UserId ≠ (p.activeSnapshot h).readonlyUserID)
    (hch : (p.activeChannelIDs h).hasValue post.ChannelId) :
    p.MessageWillBePosted api h post =
      { post := none, reason := plugin.DismissPostError,
        sent := [(post.UserId,
          { UserId := (p.activeSnapshot h).readonlyUserID, ChannelId := post.ChannelId,
            Message := "Posting is not allowed in this channel." })] } := by
  have hhit := rangeReadonlyChannels_hit api (p.activeSnapshot h) post
    (p.activeChannelIDs h).entries ((hasValue_iff_entry _ _).mp hch)
  simp [Plugin.MessageWillBePosted, hen, hbot, husr, hhit]

/-- C1 at a concrete state: a post into the managed channel whose body also
mentions the read-only user gets the channel notice. -/
theorem managed_channel_post_rejected_witness :
    exPlugin.MessageWillBePosted exAPI exHeap
        { UserId := "alice", ChannelId := "chan-a", Message := "hi @robot" } =
      { post := none, reason := plugin.DismissPostError,
        sent := [("alice",
          { UserId := "u-robot", ChannelId := "chan-a",
            Message := "Posting is not allowed in this channel." })] } :=
  managed_channel_post_rejected exAPI exHeap exPlugin
    { UserId := "alice", ChannelId := "chan-a", Message := "hi @robot" }
    (by decide) (by decide) (by decide) ⟨"team-a", by decide⟩

/-- C2: with the policy enabled, a post by an author who is neither the bot nor
the read-only user, into a channel that is no value of `readonlyChannelIDs`,
whose body contains "@" followed by `Username`, is rejected with
`plugin.DismissPostError`, and the one notice sent has the text "Shh! You must
not talk about the read-only plugin user.". -/
theorem mention_post_rejected (api : API) (h : Heap) (p : Plugin) (post : Post)
    (hen : (p.activeSnapshot h).disabled = false)
    (hbot : post.UserId ≠ p.botID)
    (husr : post.UserId ≠ (p.activeSnapshot h).readonlyUserID)
    (hch : ¬ (p.activeChannelIDs h).hasValue post.ChannelId)
    (hmsg : ("@" ++ (p.activeSnapshot h).Username).data <:+: post.Message.data) :
    p.MessageWillBePosted api h post =
      { post := none, reason := plugin.DismissPostError,
        sent := [(post.UserId,
          { UserId := (p.activeSnapshot h).readonlyUserID, ChannelId := post.ChannelId,
            Message := "Shh! You must not talk about the read-only plugin user." })] } := by
  have hmiss := rangeReadonlyChannels_miss api (p.activeSnapshot h) post
    (p.activeChannelIDs h).entries (fun hx => hch ((hasValue_iff_entry _ _).mpr hx))
  have hmsg2 : strings.Contains post.Message (fmt.SprintfAt (p.activeSnapshot h).Username)
      = true := (strings_Contains_iff _ _).mpr hmsg
  simp [Plugin.MessageWillBePosted, hen, hbot, husr, hmiss, hmsg2]

/-- C2 at a concrete state: a mention posted into an unmanaged channel. -/
theorem mention_post_rejected_witness :
    exPlugin.MessageWillBePosted exAPI exHeap
        { UserId := "alice", ChannelId := "chan-b", Message := "hi @robot" } =
      { post := none, reason := plugin.DismissPostError,
        sent := [("alice",
          { UserId := "u-robot", ChannelId := "chan-b",
            Message := "Shh! You must not talk about the read-only plugin user." })] } :=
  mention_post_rejected exAPI exHeap exPlugin
    { UserId := "alice", ChannelId := "chan-b", Message := "hi @robot" }
    (by decide) (by decide) (by decide)
    (by rw [hasValue_iff_entry]; decide) ⟨"hi ".data, [], rfl⟩

/-- C3: when the active snapshot has `disabled = true`, the hook returns the
post it was given with an empty rejection string and sends no notice, for
every author, channel and body. -/
theorem disabled_bypass (api : API) (h : Heap) (p : Plugin) (post : Post)
    (hdis : (p.activeSnapshot h).disabled = true) :
    p.MessageWillBePosted api h post = { post := some post, reason := "", sent := [] } := by
  simp [Plugin.MessageWillBePosted, hdis]

/-- C3 at a concrete state: the active configuration is a disabled copy of
`exConfig`, and a post into the managed channel that mentions the read-only
user passes. -/
theorem disabled_bypass_witness :
    Plugin.MessageWillBePosted exAPI
        { maps := [exMap], configs := [{ exConfig with disabled := true }] } exPlugin
        { UserId := "alice", ChannelId := "chan-a", Message := "hi @robot" } =
      { post := some { UserId := "alice", ChannelId := "chan-a", Message := "hi @robot" },
        reason := "", sent := [] } :=
  disabled_bypass exAPI { maps := [exMap], configs := [{ exConfig with disabled := true }] }
    exPlugin { UserId := "alice", ChannelId := "chan-a", Message := "hi @robot" } (by decide)

/-- C4: with the policy enabled, a post whose author is the bot or the
read-only user is returned unchanged with an empty rejection string and no
notice, whatever its channel and body. -/
theorem managed_author_bypass (api : API) (h : Heap) (p : Plugin) (post : Post)
    (hen : (p.activeSnapshot h).disabled = false)
    (hauthor : post.UserId = (p.activeSnapshot h).readonlyUserID ∨ post.UserId = p.botID) :
    p.MessageWillBePosted api h post = { post := some post, reason := "", sent := [] } := by
  have hor : post.UserId = p.botID ∨ post.UserId = (p.activeSnapshot h).readonlyUserID :=
    hauthor.symm
  simp [Plugin.MessageWillBePosted, hen, hor]

/-- C4 at a concrete state: the read-only user posts a mention of itself into
the managed channel. -/
theorem managed_author_bypass_witness :
    exPlugin.MessageWillBePosted exAPI exHeap
        { UserId := "u-robot", ChannelId := "chan-a", Message := "hi @robot" } =
      { post := some { UserId := "u-robot", ChannelId := "chan-a", Message := "hi @robot" },
        reason := "", sent := [] } :=
  managed_author_bypass exAPI exHeap exPlugin
    { UserId := "u-robot", ChannelId := "chan-a", Message := "hi @robot" }
    (by decide) (Or.inl (by decide))

/-- C5: with the policy enabled, a post by an author who is neither the bot nor
the read-only user, into a channel that is no value of `readonlyChannelIDs`,
whose body does not contain "@" followed by `Username`, is returned unchanged
with an empty rejection string and no notice; and whenever the hook returns no
post, the channel is a value of `readonlyChannelIDs` or the body contains the
mention. -/
theorem default_allow (api : API) (h : Heap) (p : Plugin) (post : Post) :
    ((p.activeSnapshot h).disabled = false →
      post.UserId ≠ p.botID →
      post.UserId ≠ (p.activeSnapshot h).readonlyUserID →
      ¬ (p.activeChannelIDs h).hasValue post.ChannelId →
      ¬ ("@" ++ (p.activeSnapshot h).Username).data <:+: post.Message.data →
      p.MessageWillBePosted api h post = { post := some post, reason := "", sent := [] }) ∧
    ((p.MessageWillBePosted api h post).post = none →
      (p.activeChannelIDs h).hasValue post.ChannelId ∨
      ("@" ++ (p.activeSnapshot h).Username).data <:+: post.Message.data) := by
  constructor
  · intro hen hbot husr hch hmsg
    have hmiss := rangeReadonlyChannels_miss api (p.activeSnapshot h) post
      (p.activeChannelIDs h).entries (fun hx => hch ((hasValue_iff_entry _ _).mpr hx))
    have hmsg2 : strings.Contains post.Message (fmt.SprintfAt (p.activeSnapshot h).Username)
        = false := by
      rw [← Bool.not_eq_true]
      exact fun hc => hmsg ((strings_Contains_iff _ _).mp hc)
    simp [Plugin.MessageWillBePosted, hen, hbot, husr, hmiss, hmsg2]
  · intro hrej
    by_cases hch : (p.activeChannelIDs h).hasValue post.ChannelId
    · exact Or.inl hch
    · right
      by_contra hmsg
      have hmsg2 : strings.Contains post.Message
          (fmt.SprintfAt (p.activeSnapshot h).Username) = false := by
        rw [← Bool.not_eq_true]
        exact fun hc => hmsg ((strings_Contains_iff _ _).mp hc)
      have hmiss := rangeReadonlyChannels_miss api (p.activeSnapshot h) post
        (p.activeChannelIDs h).entries (fun hx => hch ((hasValue_iff_entry _ _).mpr hx))
      unfold Plugin.MessageWillBePosted at hrej
      simp only [hmiss, hmsg2] at hrej
      split_ifs at hrej
      contradiction

/-- C5 at a concrete state: an ordinary post into an unmanaged channel. -/
theorem default_allow_witness :
    exPlugin.MessageWillBePosted exAPI exHeap
        { UserId := "alice", ChannelId := "chan-b", Message := "hi @robo" } =
      { post := some { UserId := "alice", ChannelId := "chan-b", Message := "hi @robo" },
        reason := "", sent := [] } :=
  (default_allow exAPI exHeap exPlugin
    { UserId := "alice", ChannelId := "chan-b", Message := "hi @robo" }).1
    (by decide) (by decide) (by decide) (by rw [hasValue_iff_entry]; decide)
    (by rw [← strings_Contains_iff]; decide)

/-! ## Configuration store -/

/-- C6: when the active snapshot is the non-zero object at address `a`,
`setConfiguration` called with `a` panics with "setConfiguration called with
the existing configuration"; called with a distinct object `b` whose fields
equal those of `a` it returns normally, and `b` is then the object that
`getConfiguration` returns. -/
theorem setConfiguration_identity_check (h : Heap) (p : Plugin) (a b : Nat)
    (c : configuration)
    (hact : p.configuration = some a)
    (_ha : h.configs[a]? = some c) (_hnz : c ≠ configuration.zero)
    (_hb : h.configs[b]? = some c) (hab : b ≠ a) :
    p.setConfiguration (some a) = .error setConfigurationPanic ∧
    p.setConfiguration (some b) = .ok { p with configuration := some b } ∧
    Plugin.getConfiguration h { p with configuration := some b } = (h, b) := by
  refine ⟨?_, ?_, rfl⟩
  · simp [Plugin.setConfiguration, hact, configuration.NumField]
  · have hne : ¬ a = b := fun e => hab e.symm
    simp [Plugin.setConfiguration, hact, hne]

/-- C6 at a concrete state: two field-equal objects at addresses 0 and 1, the
first one active. -/
theorem setConfiguration_identity_check_witness :
    exPlugin.setConfiguration (some 0) = .error setConfigurationPanic ∧
    exPlugin.setConfiguration (some 1) = .ok { exPlugin with configuration := some 1 } ∧
    Plugin.getConfiguration exHeap { exPlugin with configuration := some 1 } = (exHeap, 1) :=
  setConfiguration_identity_check exHeap exPlugin 0 1 exConfig rfl rfl (by decide) rfl
    (by decide)

/-- C7, as the claim states it, fails: the active snapshot is a zero-value
object, `setConfiguration` is called with that same object, and the call
panics instead of returning. -/
theorem setConfiguration_zero_value_panics :
    exZeroPlugin.activeSnapshot exZeroHeap = configuration.zero ∧
    (exZeroPlugin.getConfiguration exZeroHeap).2 = 0 ∧
    exZeroPlugin.setConfiguration (some 0) = .error setConfigurationPanic ∧
    ∀ q, exZeroPlugin.setConfiguration (some 0) ≠ .ok q := by
  refine ⟨by decide, by decide, rfl, ?_⟩
  intro q hq
  have hpanic : exZeroPlugin.setConfiguration (some 0) = .error setConfigurationPanic := rfl
  rw [hpanic] at hq
  cases hq

/-- C7, amended: when the stored active snapshot is a zero-value object and
`setConfiguration` is called with that same object, the call panics like for
any other object; when no snapshot was ever stored, `setConfiguration` called
with the zero-value object that `getConfiguration` returned is accepted and
makes that object active. -/
theorem setConfiguration_zero_value (h : Heap) (p : Plugin) :
    (∀ a, p.configuration = some a → h.config a = configuration.zero →
      p.setConfiguration (some a) = .error setConfigurationPanic) ∧
    (p.configuration = none →
      (p.getConfiguration h).1.config (p.getConfiguration h).2 = configuration.zero ∧
      p.setConfiguration (some (p.getConfiguration h).2) =
        .ok { p with configuration := some (p.getConfiguration h).2 }) := by
  constructor
  · intro a hact _
    simp [Plugin.setConfiguration, hact, configuration.NumField]
  · intro hnil
    constructor
    · simp [Plugin.getConfiguration, hnil, Heap.newConfig, Heap.config]
    · simp [Plugin.setConfiguration, hnil]

/-- C7 amended, at concrete states: the stored zero-value object is refused,
the zero-value object obtained on a fresh plugin is accepted. -/
theorem setConfiguration_zero_value_witness :
    exZeroPlugin.setConfiguration (some 0) = .error setConfigurationPanic ∧
    exFreshPlugin.setConfiguration (some 1) = .ok { exFreshPlugin with configuration := some 1 } :=
  ⟨(setConfiguration_zero_value exZeroHeap exZeroPlugin).1 0 rfl rfl,
   ((setConfiguration_zero_value exZeroHeap exFreshPlugin).2 rfl).2⟩

/-- C8: for a configuration object `c` of the heap, `c.Clone()` carries the
same `Username`, `ChannelName`, `TextStyle`, `disabled` and `readonlyUserID`;
its `readonlyChannelIDs` is a non-nil map with the same value under every key
as the map of `c` (empty when the map of `c` is nil); and after any sequence of
assignments and deletions on the clone's map, every lookup on the map of `c`
gives what it gave before the clone was made. -/
theorem Clone_deep_copy (h : Heap) (c : Nat)
    (hc : c < h.configs.length)
    (hm : ∀ a, (h.config c).readonlyChannelIDs = some a → a < h.maps.length) :
    ((configuration.Clone h c).1.config (configuration.Clone h c).2).Username
      = (h.config c).Username ∧
    ((configuration.Clone h c).1.config (configuration.Clone h c).2).ChannelName
      = (h.config c).ChannelName ∧
    ((configuration.Clone h c).1.config (configuration.Clone h c).2).TextStyle
      = (h.config c).TextStyle ∧
    ((configuration.Clone h c).1.config (configuration.Clone h c).2).disabled
      = (h.config c).disabled ∧
    ((configuration.Clone h c).1.config (configuration.Clone h c).2).readonlyUserID
      = (h.config c).readonlyUserID ∧
    ∃ a2,
      ((configuration.Clone h c).1.config (configuration.Clone h c).2).readonlyChannelIDs
        = some a2 ∧
      (∀ k, ((configuration.Clone h c).1.mapAt (some a2)).get k
        = (h.mapAt (h.config c).readonlyChannelIDs).get k) ∧
      ((h.config c).readonlyChannelIDs = none →
        (configuration.Clone h c).1.mapAt (some a2) = ∅) ∧
      ∀ (ops : List MapOp) (k : String),
        (((configuration.Clone h c).1.mapApplyAll a2 ops).mapAt
            (((configuration.Clone h c).1.mapApplyAll a2 ops).config c).readonlyChannelIDs).get k
          = (h.mapAt (h.config c).readonlyChannelIDs).get k := by
  rw [Clone_eq]
  have hnew : ∀ (ms : List GoMap) (x : configuration),
      Heap.config { maps := ms, configs := h.configs ++ [x] } h.configs.length = x := by
    intro ms x
    simp [Heap.config]
  refine ⟨by simp [hnew], by simp [hnew], by simp [hnew], by simp [hnew], by simp [hnew],
    h.maps.length, by simp [hnew], ?_, ?_, ?_⟩
  · intro k
    rw [mapAt_last, foldl_assign_get _ (h.mapAt (h.config c).readonlyChannelIDs).nodupKeys]
    have hsrc : (h.mapAt (h.config c).readonlyChannelIDs).get k =
        List.dlookup k (h.mapAt (h.config c).readonlyChannelIDs).entries := rfl
    rw [hsrc]
    cases List.dlookup k (h.mapAt (h.config c).readonlyChannelIDs).entries with
    | none => rfl
    | some v => rfl
  · intro hnil
    rw [mapAt_last]
    simp [Heap.mapAt, hnil, GoMap.make]
  · intro ops k
    obtain ⟨m2, hm2⟩ := mapApplyAll_last h.maps
      (h.configs ++
        [{ Username := (h.config c).Username
           ChannelName := (h.config c).ChannelName
           TextStyle := (h.config c).TextStyle
           disabled := (h.config c).disabled
           readonlyUserID := (h.config c).readonlyUserID
           readonlyChannelIDs := some h.maps.length }]) ops
      ((h.mapAt (h.config c).readonlyChannelIDs).entries.foldl
        (fun acc e => acc.assign e.1 e.2) GoMap.make)
    have heta : ({ maps := h.maps, configs := h.configs } : Heap) = h := rfl
    rw [hm2, config_append (h.maps ++ [m2]) h.maps h.configs _ c hc, heta,
      mapAt_append h.maps _ h.configs m2 _ hm, heta]

/-- C8 at a concrete state: the clone of the object at address 0 owns the map
object at address 1; after that map is assigned and then deleted at "team-a",
the original still maps "team-a" to "chan-a". -/
theorem Clone_deep_copy_witness :
    (((configuration.Clone exHeap 0).1.mapApplyAll 1
          [MapOp.assign "team-a" "chan-x", MapOp.delete "team-a"]).mapAt
        (((configuration.Clone exHeap 0).1.mapApplyAll 1
          [MapOp.assign "team-a" "chan-x", MapOp.delete "team-a"]).config 0).readonlyChannelIDs).get
      "team-a" = some "chan-a" := by
  obtain ⟨a2, ha2, _, _, hops⟩ :=
    (Clone_deep_copy exHeap 0 (by decide) (by decide)).2.2.2.2.2
  have h1 : ((configuration.Clone exHeap 0).1.config
      (configuration.Clone exHeap 0).2).readonlyChannelIDs = some 1 := by decide
  have ha : a2 = 1 := (Option.some.inj (h1.symm.trans ha2)).symm
  subst ha
  exact (hops [MapOp.assign "team-a" "chan-x", MapOp.delete "team-a"] "team-a").trans
    (by decide)

/-! ## Configuration differ -/

/-- C9: the change-set is empty when old and new agree on `Username`,
`ChannelName` and `TextStyle`; in general its keys are exactly those of
"username", "channel_name", "text_style" whose field differs between old and
new; and the change-set does not depend on `disabled`, `readonlyUserID` or
`readonlyChannelIDs` of either snapshot. -/
theorem configurationDiff_keys (old new : configuration) :
    (new.Username = old.Username → new.ChannelName = old.ChannelName →
      new.TextStyle = old.TextStyle → configurationDiff old new = ∅) ∧
    (∀ k, k ∈ (configurationDiff old new).keys ↔
      (k = "username" ∧ new.Username ≠ old.Username) ∨
      (k = "channel_name" ∧ new.ChannelName ≠ old.ChannelName) ∨
      (k = "text_style" ∧ new.TextStyle ≠ old.TextStyle)) ∧
    (∀ (d1 d2 : Bool) (u1 u2 : String) (m1 m2 : Option Nat),
      configurationDiff
          { old with disabled := d1, readonlyUserID := u1, readonlyChannelIDs := m1 }
          { new with disabled := d2, readonlyUserID := u2, readonlyChannelIDs := m2 }
        = configurationDiff old new) := by
  refine ⟨?_, ?_, ?_⟩
  · intro hu hc ht
    simp [configurationDiff, hu, hc, ht, GoMap.make]
  · intro k
    rw [← AList.mem_keys]
    by_cases hu : new.Username = old.Username <;>
      by_cases hc : new.ChannelName = old.ChannelName <;>
      by_cases ht : new.TextStyle = old.TextStyle <;>
      simp only [configurationDiff, hu, hc, ht, ne_eq, not_true_eq_false, not_false_eq_true,
        if_true, if_false, mem_assign_iff, not_mem_make, or_false, false_and, and_true,
        false_or] <;>
      tauto
  · intro d1 d2 u1 u2 m1 m2
    rfl

/-- C9 at concrete states: equal snapshots give the empty change-set. -/
theorem configurationDiff_keys_witness : configurationDiff exConfig exConfig = ∅ :=
  (configurationDiff_keys exConfig exConfig).1 rfl rfl rfl

/-- C10, evaluated on the code: old and new differ in `TextStyle` only, the new
`TextStyle` is "bold", and the value stored under "text_style" is the new
`ChannelName` "announcements", not "bold". -/
theorem configurationDiff_text_style_value :
    exRestyled.TextStyle = "bold" ∧
    exRestyled.ChannelName = "announcements" ∧
    (configurationDiff exConfig exRestyled).get "text_style" = some "announcements" ∧
    (configurationDiff exConfig exRestyled).get "text_style" ≠ some exRestyled.TextStyle := by
  decide

end ReadOnlyChannel

namespace ReadOnlyChannel

/-! ## Message gate: notices and the empty user name -/

/-- The loop over the read-only channels does not depend on what the host
returns from `SendEphemeralPost`. -/
theorem rangeReadonlyChannels_api (api api2 : API) (cfg : configuration) (post : Post)
    (l : List (Sigma fun _ : String => String)) :
    rangeReadonlyChannels api2 cfg post l = rangeReadonlyChannels api cfg post l := by
  induction l with
  | nil => rfl
  | cons e rest ih => simp only [rangeReadonlyChannels, ih]

/-- A single character occurs as a substring exactly when it is a member. -/
theorem singleton_infix_iff_mem (c : Char) (l : List Char) : [c] <:+: l ↔ c ∈ l := by
  constructor
  · rintro ⟨s, t, rfl⟩
    simp
  · intro hc
    obtain ⟨s, t, rfl⟩ := List.append_of_mem hc
    exact ⟨s, t, by simp⟩

/-- C15: whenever the hook rejects a post it sends exactly one ephemeral
notice, addressed to the author of the post, authored as `readonlyUserID` of
the snapshot read at entry, placed in the channel of the post, with one of the
two notice texts; a post that is let through sends none; and the whole result
is the same for every behaviour of `SendEphemeralPost`. -/
theorem notice_addressing (api api2 : API) (h : Heap) (p : Plugin) (post : Post) :
    ((p.MessageWillBePosted api h post).post = none →
      ∃ text, (text = "Posting is not allowed in this channel." ∨
          text = "Shh! You must not talk about the read-only plugin user.") ∧
        (p.MessageWillBePosted api h post).sent =
          [(post.UserId,
            { UserId := (p.activeSnapshot h).readonlyUserID, ChannelId := post.ChannelId,
              Message := text })]) ∧
    ((p.MessageWillBePosted api h post).post ≠ none →
      (p.MessageWillBePosted api h post).sent = []) ∧
    p.MessageWillBePosted api2 h post = p.MessageWillBePosted api h post := by
  refine ⟨?_, ?_, ?_⟩
  · intro hrej
    by_cases hch : (p.activeChannelIDs h).hasValue post.ChannelId
    · have hhit := rangeReadonlyChannels_hit api (p.activeSnapshot h) post
        (p.activeChannelIDs h).entries ((hasValue_iff_entry _ _).mp hch)
      refine ⟨"Posting is not allowed in this channel.", Or.inl rfl, ?_⟩
      unfold Plugin.MessageWillBePosted at hrej ⊢
      simp only [hhit] at hrej ⊢
      split_ifs at hrej ⊢
      rfl
    · have hmiss := rangeReadonlyChannels_miss api (p.activeSnapshot h) post
        (p.activeChannelIDs h).entries (fun hx => hch ((hasValue_iff_entry _ _).mpr hx))
      refine ⟨"Shh! You must not talk about the read-only plugin user.", Or.inr rfl, ?_⟩
      unfold Plugin.MessageWillBePosted at hrej ⊢
      simp only [hmiss] at hrej ⊢
      split_ifs at hrej ⊢
      rfl
  · intro hpass
    by_cases hch : (p.activeChannelIDs h).hasValue post.ChannelId
    · have hhit := rangeReadonlyChannels_hit api (p.activeSnapshot h) post
        (p.activeChannelIDs h).entries ((hasValue_iff_entry _ _).mp hch)
      unfold Plugin.MessageWillBePosted at hpass ⊢
      simp only [hhit] at hpass ⊢
      split_ifs at hpass ⊢ <;> first | rfl | exact absurd rfl hpass
    · have hmiss := rangeReadonlyChannels_miss api (p.activeSnapshot h) post
        (p.activeChannelIDs h).entries (fun hx => hch ((hasValue_iff_entry _ _).mpr hx))
      unfold Plugin.MessageWillBePosted at hpass ⊢
      simp only [hmiss] at hpass ⊢
      split_ifs at hpass ⊢ <;> first | rfl | exact absurd rfl hpass
  · simp only [Plugin.MessageWillBePosted, rangeReadonlyChannels_api api api2]

/-- C15 at a concrete state: the rejected post of "alice" into "chan-a" yields
one notice to "alice", authored by "u-robot", in "chan-a". -/
theorem notice_addressing_witness :
    ∃ text, (text = "Posting is not allowed in this channel." ∨
        text = "Shh! You must not talk about the read-only plugin user.") ∧
      (exPlugin.MessageWillBePosted exAPI exHeap
          { UserId := "alice", ChannelId := "chan-a", Message := "hello" }).sent =
        [("alice", { UserId := "u-robot", ChannelId := "chan-a", Message := text })] :=
  (notice_addressing exAPI exAPI exHeap exPlugin
    { UserId := "alice", ChannelId := "chan-a", Message := "hello" }).1 (by decide)

/-- C19: with the policy enabled and an empty `Username`, a post by an author
who is neither the bot nor the read-only user, into a channel that is no value
of `readonlyChannelIDs`, is rejected exactly when its body contains the
character "@". -/
theorem empty_username_rejects_every_at (api : API) (h : Heap) (p : Plugin) (post : Post)
    (hen : (p.activeSnapshot h).disabled = false)
    (hname : (p.activeSnapshot h).Username = "")
    (hbot : post.UserId ≠ p.botID)
    (husr : post.UserId ≠ (p.activeSnapshot h).readonlyUserID)
    (hch : ¬ (p.activeChannelIDs h).hasValue post.ChannelId) :
    (p.MessageWillBePosted api h post).post = none ↔ '@' ∈ post.Message.data := by
  have hmiss := rangeReadonlyChannels_miss api (p.activeSnapshot h) post
    (p.activeChannelIDs h).entries (fun hx => hch ((hasValue_iff_entry _ _).mpr hx))
  have hcontains : strings.Contains post.Message (fmt.SprintfAt (p.activeSnapshot h).Username)
      = true ↔ '@' ∈ post.Message.data := by
    rw [strings_Contains_iff, hname, ← singleton_infix_iff_mem]
    rfl
  by_cases hat : '@' ∈ post.Message.data
  · have hc := hcontains.mpr hat
    simp [Plugin.MessageWillBePosted, hen, hbot, husr, hmiss, hc, hat]
  · have hc : strings.Contains post.Message (fmt.SprintfAt (p.activeSnapshot h).Username)
        = false := by
      rw [← Bool.not_eq_true]
      exact fun hx => hat (hcontains.mp hx)
    simp [Plugin.MessageWillBePosted, hen, hbot, husr, hmiss, hc, hat]

/-- C19 at a concrete state: no configuration was ever set, and a post with an
"@" in its body is rejected. -/
theorem empty_username_rejects_every_at_witness :
    (exFreshPlugin.MessageWillBePosted exAPI exEmptyHeap
        { UserId := "alice", ChannelId := "chan-b", Message := "mail me: a@b" }).post = none :=
  (empty_username_rejects_every_at exAPI exEmptyHeap exFreshPlugin
    { UserId := "alice", ChannelId := "chan-b", Message := "mail me: a@b" }
    (by decide) (by decide) (by decide) (by decide)
    (by rw [hasValue_iff_entry]; decide)).mpr (by decide)

end ReadOnlyChannel

namespace ReadOnlyChannel

/-! ## Reconciliation: the managed user -/

/-- C14: when `GetUserByUsername(Username)` returns a user, `ensureROUser`
makes no `CreateUser` call and, when `GetTeams` succeeds, returns the id of
that user; when it returns no user, with or without an error, `ensureROUser`
makes exactly one `CreateUser` call, for a user with the configured
`Username`, and, when the creation and `GetTeams` succeed, returns the id of
the created user. -/
theorem ensureROUser_lookup_then_create {σ : Type} (api : Host σ) (s : σ) (h : Heap)
    (c : Nat) :
    (∀ user, (api.GetUserByUsername s (h.config c).Username).1 = some user →
      (Plugin.ensureROUser api s h c).calls.filter Call.isCreateUser = [] ∧
      ∀ teams, api.GetTeams s = .ok teams →
        (Plugin.ensureROUser api s h c).value = .ok user.Id) ∧
    ((api.GetUserByUsername s (h.config c).Username).1 = none →
      (Plugin.ensureROUser api s h c).calls.filter Call.isCreateUser =
        [Call.CreateUser (roUser (h.config c).Username)] ∧
      (roUser (h.config c).Username).Username = (h.config c).Username ∧
      ∀ user s1 teams, api.CreateUser s (roUser (h.config c).Username) = (.ok user, s1) →
        api.GetTeams s1 = .ok teams →
        (Plugin.ensureROUser api s h c).value = .ok user.Id) := by
  have hmembers : ∀ (teams : List Team) (uid : String),
      (teams.map (fun team => Call.CreateTeamMember team.Id uid)).filter Call.isCreateUser
        = [] := by
    intro teams uid
    induction teams with
    | nil => rfl
    | cons t rest ih => simp [List.filter, Call.isCreateUser]
  constructor
  · intro user hfound
    constructor
    · simp only [Plugin.ensureROUser, hfound, ensureROUser.teams]
      cases api.GetTeams s with
      | error err => simp [Call.isCreateUser]
      | ok teams => simp [Call.isCreateUser, hmembers]
    · intro teams hteams
      simp [Plugin.ensureROUser, hfound, ensureROUser.teams, hteams]
  · intro habsent
    refine ⟨?_, rfl, ?_⟩
    · simp only [Plugin.ensureROUser, habsent]
      rcases hcreate : api.CreateUser s (roUser (h.config c).Username) with ⟨res, s1⟩
      cases res with
      | error err => simp [Call.isCreateUser]
      | ok user =>
        simp only [ensureROUser.teams]
        cases api.GetTeams s1 with
        | error err => simp [Call.isCreateUser]
        | ok teams => simp [Call.isCreateUser, hmembers]
    · intro user s1 teams hcreate hteams
      simp [Plugin.ensureROUser, habsent, hcreate, ensureROUser.teams, hteams]

/-- C14 at concrete directories: an existing "robot" is returned without any
`CreateUser` call. -/
theorem ensureROUser_lookup_then_create_witness :
    (Plugin.ensureROUser exHost exDirectory
        { maps := [], configs := [exConfig] } 0).calls.filter Call.isCreateUser = [] ∧
    (Plugin.ensureROUser exHost exDirectory
        { maps := [], configs := [exConfig] } 0).value = .ok "u-robot" :=
  ⟨((ensureROUser_lookup_then_create exHost exDirectory
      { maps := [], configs := [exConfig] } 0).1
      { roUser "robot" with Id := "u-robot" } (by decide)).1,
   ((ensureROUser_lookup_then_create exHost exDirectory
      { maps := [], configs := [exConfig] } 0).1
      { roUser "robot" with Id := "u-robot" } (by decide)).2 exDirectory.teams rfl⟩

/-- C12, evaluated on the code: in a successful run of `OnConfigurationChange`
on a directory where "robot" has the id "u-robot", the published
`readonlyUserID` is "u-robot", while both `CreateTeamMember` calls were made
with the empty user id. -/
theorem ensureROUser_team_member_user_id :
    (Plugin.OnConfigurationChange exHost exDirectory exEmptyHeap exFreshPlugin).toOption.map
        (fun o => (o.err, (o.plugin.activeSnapshot o.heap).readonlyUserID,
          o.calls.filter Call.isCreateTeamMember)) =
      some (none, "u-robot",
        [Call.CreateTeamMember "team-a" "", Call.CreateTeamMember "team-b" ""]) := by
  decide

/-! ## Reconciliation: the channels -/

/-- The loop of `ensureROChannels`, run on a heap whose last map object is the
new map, only rewrites that object. -/
theorem foldl_step_last {σ : Type} (api : Host σ) (s : σ) (channelName : String)
    (pre : List GoMap) (cfgs : List configuration) (teams : List Team) (m : GoMap) :
    teams.foldl (ensureROChannels.step api s channelName pre.length)
        ({ maps := pre ++ [m], configs := cfgs } : Heap) =
      { maps := pre ++ [teams.foldl (ensureROChannels.collect api s channelName) m],
        configs := cfgs } := by
  induction teams generalizing m with
  | nil => rfl
  | cons t rest ih =>
    rw [List.foldl_cons, List.foldl_cons]
    have hstep : ensureROChannels.step api s channelName pre.length
        { maps := pre ++ [m], configs := cfgs } t =
        { maps := pre ++ [ensureROChannels.collect api s channelName m t],
          configs := cfgs } := by
      unfold ensureROChannels.step ensureROChannels.collect
      cases (api.GetChannelByNameForTeamName s t.Name channelName false).1 with
      | none => rfl
      | some channel => simp [Heap.mapAssign, modify_concat_length]
    rw [hstep, ih]

/-- The result of `ensureROChannels` when `GetTeams` succeeds, in closed form. -/
theorem ensureROChannels_eq {σ : Type} (api : Host σ) (s : σ) (h : Heap) (c : Nat)
    (teams : List Team) (hteams : api.GetTeams s = .ok teams) :
    Plugin.ensureROChannels api s h c =
      ({ maps := h.maps ++
            [teams.foldl (ensureROChannels.collect api s (h.config c).ChannelName)
              GoMap.make],
         configs := h.configs },
       Call.GetTeams :: teams.map (fun team =>
         Call.GetChannelByNameForTeamName team.Name (h.config c).ChannelName false),
       .ok (some h.maps.length)) := by
  simp only [Plugin.ensureROChannels, hteams, Heap.newMap]
  rw [foldl_step_last]

/-- A key that is the id of no listed team is left alone by the loop. -/
theorem collect_get_other {σ : Type} (api : Host σ) (s : σ) (channelName : String)
    (teams : List Team) (m : GoMap) (k : String) (hk : ∀ T ∈ teams, T.Id ≠ k) :
    (teams.foldl (ensureROChannels.collect api s channelName) m).get k = m.get k := by
  induction teams generalizing m with
  | nil => rfl
  | cons t rest ih =>
    rw [List.foldl_cons, ih _ (fun T hT => hk T (List.mem_cons_of_mem _ hT))]
    have ht : t.Id ≠ k := hk t (List.mem_cons_self _ _)
    unfold ensureROChannels.collect
    cases (api.GetChannelByNameForTeamName s t.Name channelName false).1 with
    | none => rfl
    | some channel =>
      simp [GoMap.get, GoMap.assign, AList.lookup_insert_ne (Ne.symm ht)]

/-- After the loop over teams with distinct ids, the id of a listed team maps
to the id of the channel found for it, or to what the map held before when no
channel was found. -/
theorem collect_get_team {σ : Type} (api : Host σ) (s : σ) (channelName : String)
    (teams : List Team) (hnodup : (teams.map Team.Id).Nodup) (m : GoMap)
    (T : Team) (hT : T ∈ teams) :
    (teams.foldl (ensureROChannels.collect api s channelName) m).get T.Id =
      (match (api.GetChannelByNameForTeamName s T.Name channelName false).1 with
       | some channel => some channel.Id
       | none => m.get T.Id) := by
  induction teams generalizing m with
  | nil => simp at hT
  | cons t rest ih =>
    rw [List.map_cons, List.nodup_cons] at hnodup
    obtain ⟨hnot, hrest⟩ := hnodup
    rw [List.foldl_cons]
    by_cases hmem : T ∈ rest
    · rw [ih hrest _ hmem]
      have hne : t.Id ≠ T.Id := fun e => hnot (e ▸ List.mem_map_of_mem Team.Id hmem)
      cases (api.GetChannelByNameForTeamName s T.Name channelName false).1 with
      | some channel => rfl
      | none =>
        show (ensureROChannels.collect api s channelName m t).get T.Id = m.get T.Id
        unfold ensureROChannels.collect
        cases (api.GetChannelByNameForTeamName s t.Name channelName false).1 with
        | none => rfl
        | some channel =>
          simp [GoMap.get, GoMap.assign, AList.lookup_insert_ne (Ne.symm hne)]
    · have hTt : T = t := by
        rcases List.mem_cons.mp hT with e | e
        · exact e
        · exact absurd e hmem
      subst hTt
      have hother : ∀ U ∈ rest, U.Id ≠ T.Id := fun U hU e =>
        hnot (e ▸ List.mem_map_of_mem Team.Id hU)
      rw [collect_get_other api s channelName rest _ T.Id hother]
      unfold ensureROChannels.collect
      cases (api.GetChannelByNameForTeamName s T.Name channelName false).1 with
      | none => rfl
      | some channel => simp [GoMap.get, GoMap.assign]

/-- C11: when `GetTeams` succeeds with teams of pairwise distinct ids,
`ensureROChannels` returns a nil error and a map in which every listed team
whose lookup of `ChannelName` returns a channel maps to the id of that channel,
every listed team whose lookup returns no channel (with or without an error)
has no entry, and every key is the id of a listed team. -/
theorem ensureROChannels_result {σ : Type} (api : Host σ) (s : σ) (h : Heap) (c : Nat)
    (teams : List Team) (hteams : api.GetTeams s = .ok teams)
    (hnodup : (teams.map Team.Id).Nodup) :
    ∃ m, (Plugin.ensureROChannels api s h c).2.2 = .ok (some m) ∧
      (∀ T ∈ teams,
        ((Plugin.ensureROChannels api s h c).1.mapAt (some m)).get T.Id =
          ((api.GetChannelByNameForTeamName s T.Name (h.config c).ChannelName false).1).map
            Channel.Id) ∧
      (∀ k, k ∈ ((Plugin.ensureROChannels api s h c).1.mapAt (some m)).keys →
        ∃ T ∈ teams, T.Id = k) := by
  rw [ensureROChannels_eq api s h c teams hteams]
  refine ⟨h.maps.length, rfl, ?_, ?_⟩
  · intro T hT
    simp only [mapAt_last]
    rw [collect_get_team api s _ teams hnodup GoMap.make T hT]
    cases (api.GetChannelByNameForTeamName s T.Name (h.config c).ChannelName false).1 with
    | none => rfl
    | some channel => rfl
  · intro k hk
    simp only [mapAt_last] at hk
    by_contra hnone
    have hother : ∀ T ∈ teams, T.Id ≠ k := fun T hT e => hnone ⟨T, hT, e⟩
    have hget := collect_get_other api s (h.config c).ChannelName teams GoMap.make k hother
    have hmem : k ∈ teams.foldl (ensureROChannels.collect api s (h.config c).ChannelName)
        GoMap.make := AList.mem_keys.mpr hk
    rw [← AList.lookup_isSome] at hmem
    have hnone2 : (GoMap.make.get k) = none := rfl
    rw [hnone2] at hget
    simp only [GoMap.get] at hget
    rw [hget] at hmem
    exact absurd hmem (by simp)

/-- C11 at a concrete directory: of the two teams only "team-a" has a channel
"announcements", so it maps to "chan-a" and "team-b" has no entry. -/
theorem ensureROChannels_result_witness :
    ((Plugin.ensureROChannels exHost exDirectory
        { maps := [], configs := [exConfig] } 0).1.mapAt (some 0)).get "team-a"
      = some "chan-a" ∧
    ((Plugin.ensureROChannels exHost exDirectory
        { maps := [], configs := [exConfig] } 0).1.mapAt (some 0)).get "team-b"
      = none := by
  obtain ⟨m, hm, hget, _⟩ := ensureROChannels_result exHost exDirectory
    { maps := [], configs := [exConfig] } 0 exDirectory.teams rfl (by decide)
  have h0 : (Plugin.ensureROChannels exHost exDirectory
      { maps := [], configs := [exConfig] } 0).2.2 = .ok (some 0) := rfl
  have hm0 : m = 0 := by
    rw [h0] at hm
    injection hm with e
    injection e with e2
    exact e2.symm
  subst hm0
  exact ⟨(hget { Id := "team-a", Name := "a" } (by decide)).trans (by decide),
    (hget { Id := "team-b", Name := "b" } (by decide)).trans (by decide)⟩

end ReadOnlyChannel

namespace ReadOnlyChannel

/-! ## Enabling and disabling -/

/-- Copying a map entry by entry gives a map with the same lookups. -/
theorem copy_get (m : GoMap) (k : String) :
    (m.entries.foldl (fun acc e => acc.assign e.1 e.2) GoMap.make).get k = m.get k := by
  rw [foldl_assign_get _ m.nodupKeys]
  have hsrc : m.get k = List.dlookup k m.entries := rfl
  rw [hsrc]
  cases List.dlookup k m.entries with
  | none => rfl
  | some v => rfl

/-- The heap after `Clone` followed by an assignment to `disabled` of the
clone, in closed form. -/
theorem Clone_setDisabled_eq (g : Heap) (a : Nat) (b : Bool) :
    (configuration.Clone g a).1.setConfig (configuration.Clone g a).2
        (fun x => { x with disabled := b }) =
      { maps := g.maps ++ [(g.mapAt (g.config a).readonlyChannelIDs).entries.foldl
            (fun acc e => acc.assign e.1 e.2) GoMap.make],
        configs := g.configs ++
          [{ Username := (g.config a).Username
             ChannelName := (g.config a).ChannelName
             TextStyle := (g.config a).TextStyle
             disabled := b
             readonlyUserID := (g.config a).readonlyUserID
             readonlyChannelIDs := some g.maps.length }] } := by
  rw [Clone_eq]
  simp [Heap.setConfig, modify_concat_length]

/-- Reading the pointer to the last configuration object. -/
theorem config_last (ms : List GoMap) (cfgs : List configuration) (x : configuration) :
    Heap.config { maps := ms, configs := cfgs ++ [x] } cfgs.length = x := by
  simp [Heap.config]

/-- C17: for every plugin state, with or without a stored snapshot, and every
`e`, `setEnabled(e)` returns without a panic; afterwards the active snapshot
has `disabled = !e`, the same `Username`, `ChannelName`, `TextStyle` and
`readonlyUserID` as the snapshot active before, and the same value under every
key of `readonlyChannelIDs`; the object that was active before, and its map,
are as they were. -/
theorem setEnabled_changes_only_enabled (h : Heap) (p : Plugin) (e : Bool)
    (hvalid : ∀ a, p.configuration = some a →
      a < h.configs.length ∧
      ∀ r, (h.config a).readonlyChannelIDs = some r → r < h.maps.length) :
    ∃ h2 p2, p.setEnabled h e = .ok (h2, p2) ∧
      (p2.activeSnapshot h2).disabled = !e ∧
      (p2.activeSnapshot h2).Username = (p.activeSnapshot h).Username ∧
      (p2.activeSnapshot h2).ChannelName = (p.activeSnapshot h).ChannelName ∧
      (p2.activeSnapshot h2).TextStyle = (p.activeSnapshot h).TextStyle ∧
      (p2.activeSnapshot h2).readonlyUserID = (p.activeSnapshot h).readonlyUserID ∧
      (∀ k, (p2.activeChannelIDs h2).get k = (p.activeChannelIDs h).get k) ∧
      (∀ a, p.configuration = some a →
        h2.config a = h.config a ∧
        h2.mapAt (h.config a).readonlyChannelIDs = h.mapAt (h.config a).readonlyChannelIDs) := by
  cases hp : p.configuration with
  | none =>
    have hget : p.getConfiguration h =
        ({ maps := h.maps, configs := h.configs ++ [configuration.zero] },
          h.configs.length) := by
      simp [Plugin.getConfiguration, hp, Heap.newConfig]
    have hzero : Heap.config { maps := h.maps, configs := h.configs ++ [configuration.zero] }
        h.configs.length = configuration.zero := config_last _ _ _
    have hset : p.setConfiguration (some (h.configs.length + 1)) =
        .ok { p with configuration := some (h.configs.length + 1) } := by
      simp [Plugin.setConfiguration, hp]
    have hlen : (h.configs ++ [configuration.zero]).length = h.configs.length + 1 := by simp
    have hrun : p.setEnabled h e = .ok
        ((configuration.Clone { maps := h.maps, configs := h.configs ++ [configuration.zero] }
            h.configs.length).1.setConfig
          (configuration.Clone { maps := h.maps, configs := h.configs ++ [configuration.zero] }
            h.configs.length).2 (fun x => { x with disabled := !e }),
         { p with configuration := some (h.configs.length + 1) }) := by
      simp only [Plugin.setEnabled, hget]
      have h2 : (configuration.Clone
          { maps := h.maps, configs := h.configs ++ [configuration.zero] }
          h.configs.length).2 = h.configs.length + 1 := by rw [Clone_eq]; simp
      rw [h2, hset]
    refine ⟨_, _, hrun, ?_⟩
    rw [Clone_setDisabled_eq, hzero]
    have hnew : Plugin.activeSnapshot
        { maps := h.maps ++ [(Heap.mapAt
              { maps := h.maps, configs := h.configs ++ [configuration.zero] }
              configuration.zero.readonlyChannelIDs).entries.foldl
              (fun acc e => acc.assign e.1 e.2) GoMap.make],
          configs := (h.configs ++ [configuration.zero]) ++
            [{ Username := configuration.zero.Username
               ChannelName := configuration.zero.ChannelName
               TextStyle := configuration.zero.TextStyle
               disabled := !e
               readonlyUserID := configuration.zero.readonlyUserID
               readonlyChannelIDs := some h.maps.length }] }
        { p with configuration := some (h.configs.length + 1) } =
        { Username := configuration.zero.Username
          ChannelName := configuration.zero.ChannelName
          TextStyle := configuration.zero.TextStyle
          disabled := !e
          readonlyUserID := configuration.zero.readonlyUserID
          readonlyChannelIDs := some h.maps.length } := by
      simp only [Plugin.activeSnapshot, Plugin.getConfiguration, ← hlen]
      exact config_last _ _ _
    have hold : p.activeSnapshot h = configuration.zero := by
      simp only [Plugin.activeSnapshot, hget]
      exact hzero
    have holdmap : p.activeChannelIDs h = ∅ := by
      simp only [Plugin.activeChannelIDs, hold, hget]
      rfl
    refine ⟨by rw [hnew], by rw [hnew, hold], by rw [hnew, hold], by rw [hnew, hold],
      by rw [hnew, hold], ?_, ?_⟩
    · intro k
      rw [holdmap]
      simp only [Plugin.activeChannelIDs, hnew]
      simp only [Plugin.getConfiguration, mapAt_last]
      exact copy_get _ k
    · intro a ha
      exact absurd ha (by simp)
  | some a =>
    obtain ⟨ha, hmap⟩ := hvalid a hp
    have hget : p.getConfiguration h = (h, a) := by
      simp [Plugin.getConfiguration, hp]
    have hne : ¬ a = h.configs.length := Nat.ne_of_lt ha
    have hset : p.setConfiguration (some h.configs.length) =
        .ok { p with configuration := some h.configs.length } := by
      simp [Plugin.setConfiguration, hp, hne]
    have hrun : p.setEnabled h e = .ok
        ((configuration.Clone h a).1.setConfig (configuration.Clone h a).2
            (fun x => { x with disabled := !e }),
         { p with configuration := some h.configs.length }) := by
      simp only [Plugin.setEnabled, hget]
      have h2 : (configuration.Clone h a).2 = h.configs.length := by rw [Clone_eq]
      rw [h2, hset]
    refine ⟨_, _, hrun, ?_⟩
    rw [Clone_setDisabled_eq]
    have hnew : Plugin.activeSnapshot
        { maps := h.maps ++ [(h.mapAt (h.config a).readonlyChannelIDs).entries.foldl
              (fun acc e => acc.assign e.1 e.2) GoMap.make],
          configs := h.configs ++
            [{ Username := (h.config a).Username
               ChannelName := (h.config a).ChannelName
               TextStyle := (h.config a).TextStyle
               disabled := !e
               readonlyUserID := (h.config a).readonlyUserID
               readonlyChannelIDs := some h.maps.length }] }
        { p with configuration := some h.configs.length } =
        { Username := (h.config a).Username
          ChannelName := (h.config a).ChannelName
          TextStyle := (h.config a).TextStyle
          disabled := !e
          readonlyUserID := (h.config a).readonlyUserID
          readonlyChannelIDs := some h.maps.length } := by
      simp only [Plugin.activeSnapshot, Plugin.getConfiguration]
      exact config_last _ _ _
    have hold : p.activeSnapshot h = h.config a := by
      simp only [Plugin.activeSnapshot, hget]
    have holdmap : p.activeChannelIDs h = h.mapAt (h.config a).readonlyChannelIDs := by
      simp only [Plugin.activeChannelIDs, hold, hget]
    have heta : ({ maps := h.maps, configs := h.configs } : Heap) = h := rfl
    refine ⟨by rw [hnew], by rw [hnew, hold], by rw [hnew, hold], by rw [hnew, hold],
      by rw [hnew, hold], ?_, ?_⟩
    · intro k
      rw [holdmap]
      simp only [Plugin.activeChannelIDs, hnew]
      simp only [Plugin.getConfiguration, mapAt_last]
      exact copy_get _ k
    · intro a2 ha2
      have haa : a2 = a := (Option.some.inj ha2).symm
      subst haa
      constructor
      · rw [config_append _ h.maps h.configs _ a2 ha, heta]
      · rw [mapAt_append h.maps _ h.configs _ _ hmap, heta]

/-- C17 at a concrete state: disabling the configured plugin leaves "robot" as
the user name of the active snapshot and sets `disabled`. -/
theorem setEnabled_changes_only_enabled_witness :
    ∃ h2 p2, exPlugin.setEnabled exHeap false = .ok (h2, p2) ∧
      (p2.activeSnapshot h2).disabled = true ∧
      (p2.activeSnapshot h2).Username = "robot" ∧
      (p2.activeChannelIDs h2).get "team-a" = some "chan-a" := by
  obtain ⟨h2, p2, hrun, hd, hu, _, _, _, hmap, _⟩ :=
    setEnabled_changes_only_enabled exHeap exPlugin false (by decide)
  exact ⟨h2, p2, hrun, hd, hu.trans (by decide), (hmap "team-a").trans (by decide)⟩

end ReadOnlyChannel

namespace ReadOnlyChannel

/-! ## Reconciliation: the whole run -/

/-- Assigning fields of the last configuration object. -/
theorem setConfig_last (ms : List GoMap) (cfgs : List configuration) (x : configuration)
    (f : configuration → configuration) :
    Heap.setConfig { maps := ms, configs := cfgs ++ [x] } cfgs.length f =
      { maps := ms, configs := cfgs ++ [f x] } := by
  simp [Heap.setConfig, modify_concat_length]

/-- The run of `ensureROUser` depends on the heap only through the object it
is given. -/
theorem ensureROUser_last {σ : Type} (api : Host σ) (s : σ) (ms : List GoMap)
    (cfgs : List configuration) (x : configuration) :
    Plugin.ensureROUser api s { maps := ms, configs := cfgs ++ [x] } cfgs.length =
      Plugin.ensureROUser api s { maps := [], configs := [x] } 0 := by
  have h1 : Heap.config { maps := ms, configs := cfgs ++ [x] } cfgs.length = x :=
    config_last _ _ _
  have h2 : Heap.config { maps := [], configs := [x] } 0 = x := rfl
  simp only [Plugin.ensureROUser, h1, h2]

/-- The heap that `diffConfiguration` leaves is the one that its call of
`getConfiguration` leaves. -/
theorem diffConfiguration_heap {σ : Type} (api : Host σ) (s : σ) (h : Heap) (p : Plugin)
    (c : Nat) : (Plugin.diffConfiguration api s h p c).1 = (p.getConfiguration h).1 := by
  unfold Plugin.diffConfiguration
  simp only []
  split_ifs
  · rfl
  · cases api.GetTeams s <;> rfl

/-- The result of `ensureROChannels` when `GetTeams` fails. -/
theorem ensureROChannels_error {σ : Type} (api : Host σ) (s : σ) (h : Heap) (c : Nat)
    (err : String) (hteams : api.GetTeams s = .error err) :
    Plugin.ensureROChannels api s h c = (h, [Call.GetTeams], .error err) := by
  simp only [Plugin.ensureROChannels, hteams]

/-- A run of `OnConfigurationChange` that returns an error leaves the stored
pointer as it was and only appends one configuration object to the heap. -/
theorem OnConfigurationChange_error_shape {σ : Type} (api : Host σ) (s : σ) (h : Heap)
    (p : Plugin) (out : Outcome σ)
    (hrun : Plugin.OnConfigurationChange api s h p = .ok out) (herr : out.err ≠ none) :
    out.plugin.configuration = p.configuration ∧
    ∃ x, out.heap = { maps := h.maps, configs := h.configs ++ [x] } := by
  unfold Plugin.OnConfigurationChange at hrun
  simp only [Heap.newConfig, setConfig_last, ensureROUser_last] at hrun
  split at hrun
  · injection hrun with e
    subst e
    exact ⟨rfl, _, rfl⟩
  · split at hrun
    · injection hrun with e
      subst e
      exact ⟨rfl, _, rfl⟩
    · split at hrun
      · injection hrun with e
        subst e
        exact ⟨rfl, _, rfl⟩
      · split at hrun
        · rename_i h3 calls3 err hch
          injection hrun with e
          subst e
          cases hteams : api.GetTeams _ with
          | error err2 =>
            rw [ensureROChannels_error _ _ _ _ _ hteams] at hch
            injection hch with e1 e2
            subst e1
            refine ⟨rfl, ?_⟩
            simp only [setConfig_last]
            exact ⟨_, rfl⟩
          | ok teams =>
            rw [ensureROChannels_eq _ _ _ _ _ hteams] at hch
            injection hch with e1 e2
            injection e2 with e3 e4
            cases e4
        · split at hrun
          · cases hrun
          · injection hrun with e
            subst e
            exact absurd rfl herr

/-- A call of `setConfiguration` that returns has stored the pointer. -/
theorem setConfiguration_ok (p q : Plugin) (c : Option Nat)
    (hset : p.setConfiguration c = .ok q) : q = { p with configuration := c } := by
  unfold Plugin.setConfiguration at hset
  split_ifs at hset with h1 h2
  · simp [configuration.NumField] at h2
  · injection hset with e
    exact e.symm

/-- After `getConfiguration` the last configuration object and the maps of a
heap are as before. -/
theorem getConfiguration_last (p : Plugin) (ms : List GoMap) (cfgs : List configuration)
    (x : configuration) :
    (p.getConfiguration { maps := ms, configs := cfgs ++ [x] }).1.config cfgs.length = x ∧
    (p.getConfiguration { maps := ms, configs := cfgs ++ [x] }).1.maps = ms := by
  cases hp : p.configuration with
  | none =>
    have hlt : cfgs.length < (cfgs ++ [x]).length := by simp
    simp only [Plugin.getConfiguration, hp, Heap.newConfig, Heap.config]
    rw [List.getElem?_append_left hlt, List.getElem?_concat_length]
    simp
  | some a =>
    simp [Plugin.getConfiguration, hp, Heap.config]

/-- With a stored pointer, the active snapshot is the object it points to. -/
theorem activeSnapshot_some (g : Heap) (q : Plugin) (a : Nat)
    (hq : q.configuration = some a) :
    q.activeSnapshot g = g.config a ∧
    q.activeChannelIDs g = g.mapAt (g.config a).readonlyChannelIDs := by
  simp [Plugin.activeSnapshot, Plugin.activeChannelIDs, Plugin.getConfiguration, hq]

/-- A run of `OnConfigurationChange` that returns no error went through every
step, and publishes the loaded fields, the id returned by `ensureROUser` and
the map built from the teams. -/
theorem OnConfigurationChange_success_shape {σ : Type} (api : Host σ) (s : σ) (h : Heap)
    (p : Plugin) (out : Outcome σ)
    (hrun : Plugin.OnConfigurationChange api s h p = .ok out) (hok : out.err = none) :
    ∃ st id botID s2 teams,
      api.LoadPluginConfiguration s = .ok st ∧
      (OnConfigurationChange.userRun api s st).value = .ok id ∧
      api.EnsureBot (OnConfigurationChange.userRun api s st).host readonlyBot
        "/assets/github.svg" = (.ok botID, s2) ∧
      api.GetTeams s2 = .ok teams ∧
      out.host = s2 ∧
      out.plugin = { configuration := some h.configs.length, botID := botID } ∧
      out.plugin.activeSnapshot out.heap =
        { Username := st.Username, ChannelName := st.ChannelName, TextStyle := st.TextStyle,
          disabled := false, readonlyUserID := id,
          readonlyChannelIDs := some h.maps.length } ∧
      out.plugin.activeChannelIDs out.heap =
        teams.foldl (ensureROChannels.collect api s2 st.ChannelName) GoMap.make := by
  unfold Plugin.OnConfigurationChange at hrun
  simp only [Heap.newConfig, setConfig_last, ensureROUser_last] at hrun
  split at hrun
  · injection hrun with e
    subst e
    simp at hok
  · rename_i st hload
    split at hrun
    · injection hrun with e
      subst e
      simp at hok
    · rename_i id huser
      split at hrun
      · injection hrun with e
        subst e
        simp at hok
      · rename_i botID s2 hbot
        cases hteams : api.GetTeams s2 with
        | error err =>
          rw [ensureROChannels_error _ _ _ _ _ hteams] at hrun
          simp only [] at hrun
          injection hrun with e
          subst e
          simp at hok
        | ok teams =>
          rw [ensureROChannels_eq _ _ _ _ _ hteams] at hrun
          simp only [setConfig_last, config_last] at hrun
          split at hrun
          · cases hrun
          · rename_i p2 hset
            have hp2 := setConfiguration_ok _ _ _ hset
            injection hrun with e
            subst e
            subst hp2
            refine ⟨st, id, botID, s2, teams, hload, huser, hbot, hteams, rfl, rfl, ?_, ?_⟩
            · rw [(activeSnapshot_some _ _ _ rfl).1, diffConfiguration_heap]
              exact (getConfiguration_last _ _ _ _).1
            · rw [(activeSnapshot_some _ _ _ rfl).2, diffConfiguration_heap,
                (getConfiguration_last _ _ _ _).1]
              simp only [Heap.mapAt]
              rw [(getConfiguration_last _ _ _ _).2, List.getElem?_concat_length]
              rfl

/-- A call of `OnConfigurationChange` returns, without a panic, when the stored
pointer is not the address at which the new object is allocated. -/
theorem OnConfigurationChange_returns {σ : Type} (api : Host σ) (s : σ) (h : Heap)
    (p : Plugin) (hp : p.configuration ≠ some h.configs.length) :
    ∃ out, Plugin.OnConfigurationChange api s h p = .ok out := by
  have hset : ∀ b : String,
      Plugin.setConfiguration { p with botID := b } (some h.configs.length) =
        .ok { configuration := some h.configs.length, botID := b } := by
    intro b
    simp [Plugin.setConfiguration, hp]
  unfold Plugin.OnConfigurationChange
  simp only [Heap.newConfig, setConfig_last, ensureROUser_last, hset]
  split
  · exact ⟨_, rfl⟩
  · split
    · exact ⟨_, rfl⟩
    · split
      · exact ⟨_, rfl⟩
      · split
        · exact ⟨_, rfl⟩
        · exact ⟨_, rfl⟩

/-- Appending one configuration object to the heap does not change what
`getConfiguration` hands out for a valid stored pointer, or for none. -/
theorem active_extend (h : Heap) (p q : Plugin) (x : configuration)
    (hq : q.configuration = p.configuration)
    (hvalid : ∀ a, p.configuration = some a → a < h.configs.length) :
    q.activeSnapshot { maps := h.maps, configs := h.configs ++ [x] } = p.activeSnapshot h ∧
    q.activeChannelIDs { maps := h.maps, configs := h.configs ++ [x] } =
      p.activeChannelIDs h := by
  have heta : ({ maps := h.maps, configs := h.configs } : Heap) = h := rfl
  cases hp : p.configuration with
  | none =>
    rw [hp] at hq
    have h1 : q.activeSnapshot { maps := h.maps, configs := h.configs ++ [x] } =
        configuration.zero := by
      simp only [Plugin.activeSnapshot, Plugin.getConfiguration, hq, Heap.newConfig]
      exact config_last _ _ _
    have h2 : p.activeSnapshot h = configuration.zero := by
      simp only [Plugin.activeSnapshot, Plugin.getConfiguration, hp, Heap.newConfig]
      exact config_last _ _ _
    refine ⟨h1.trans h2.symm, ?_⟩
    simp only [Plugin.activeChannelIDs, h1, h2]
    rfl
  | some a =>
    rw [hp] at hq
    have ha := hvalid a hp
    rw [(activeSnapshot_some _ q a hq).1, (activeSnapshot_some _ q a hq).2,
      (activeSnapshot_some _ p a hp).1, (activeSnapshot_some _ p a hp).2,
      config_append h.maps h.maps h.configs x a ha, heta]
    exact ⟨rfl, rfl⟩

/-- C18: a run of `OnConfigurationChange` that returns no error publishes a
snapshot with `disabled = false`, whatever the snapshot active before, and
with exactly the loaded `Username`, `ChannelName` and `TextStyle`. -/
theorem OnConfigurationChange_enables {σ : Type} (api : Host σ) (s : σ) (h : Heap)
    (p : Plugin) (out : Outcome σ) (st : Settings)
    (hrun : Plugin.OnConfigurationChange api s h p = .ok out) (hok : out.err = none)
    (hload : api.LoadPluginConfiguration s = .ok st) :
    (out.plugin.activeSnapshot out.heap).disabled = false ∧
    (out.plugin.activeSnapshot out.heap).Username = st.Username ∧
    (out.plugin.activeSnapshot out.heap).ChannelName = st.ChannelName ∧
    (out.plugin.activeSnapshot out.heap).TextStyle = st.TextStyle := by
  obtain ⟨st2, id, botID, s2, teams, hload2, _, _, _, _, _, hsnap, _⟩ :=
    OnConfigurationChange_success_shape api s h p out hrun hok
  have hst : st2 = st := by
    rw [hload] at hload2
    injection hload2 with e
    exact e.symm
  subst hst
  rw [hsnap]
  exact ⟨rfl, rfl, rfl, rfl⟩

/-- C18 at a concrete state: the active snapshot is disabled, and the run
publishes an enabled snapshot with the loaded names. -/
theorem OnConfigurationChange_enables_witness :
    ∃ out, Plugin.OnConfigurationChange exHost exDirectory
        { maps := [exMap], configs := [{ exConfig with disabled := true }] } exPlugin
        = .ok out ∧
      (out.plugin.activeSnapshot out.heap).disabled = false ∧
      (out.plugin.activeSnapshot out.heap).Username = "robot" ∧
      (out.plugin.activeSnapshot out.heap).ChannelName = "announcements" ∧
      (out.plugin.activeSnapshot out.heap).TextStyle = "plain" := by
  obtain ⟨out, hrun, hok⟩ : ∃ out, Plugin.OnConfigurationChange exHost exDirectory
      { maps := [exMap], configs := [{ exConfig with disabled := true }] } exPlugin
      = .ok out ∧ out.err = none := ⟨_, rfl, rfl⟩
  exact ⟨out, hrun, OnConfigurationChange_enables exHost exDirectory _ exPlugin out
    { Username := "robot", ChannelName := "announcements", TextStyle := "plain" }
    hrun hok rfl⟩

end ReadOnlyChannel

namespace ReadOnlyChannel

/-! ## Reconciliation: fatal errors -/

/-- The run of `ensureROUser` inside `OnConfigurationChange` fails when the
user is not found and cannot be created. -/
theorem userRun_create_error {σ : Type} (api : Host σ) (s s1 : σ) (st : Settings)
    (e : String) (habsent : (api.GetUserByUsername s st.Username).1 = none)
    (hcreate : api.CreateUser s (roUser st.Username) = (.error e, s1)) :
    (OnConfigurationChange.userRun api s st).value = .error e := by
  have hcfg : Heap.config { maps := [], configs := [freshConfiguration st] } 0 =
      freshConfiguration st := rfl
  simp only [OnConfigurationChange.userRun, Plugin.ensureROUser, hcfg]
  simp [freshConfiguration, habsent, hcreate]

/-- The run of `ensureROUser` inside `OnConfigurationChange` fails when the
user is found and the teams cannot be listed. -/
theorem userRun_teams_error_found {σ : Type} (api : Host σ) (s : σ) (st : Settings)
    (e : String) (user : User)
    (hfound : (api.GetUserByUsername s st.Username).1 = some user)
    (hteams : api.GetTeams s = .error e) :
    (OnConfigurationChange.userRun api s st).value = .error e := by
  have hcfg : Heap.config { maps := [], configs := [freshConfiguration st] } 0 =
      freshConfiguration st := rfl
  simp only [OnConfigurationChange.userRun, Plugin.ensureROUser, hcfg]
  simp [freshConfiguration, hfound, ensureROUser.teams, hteams]

/-- The run of `ensureROUser` inside `OnConfigurationChange` fails when the
user is created and the teams cannot be listed afterwards. -/
theorem userRun_teams_error_created {σ : Type} (api : Host σ) (s s1 : σ) (st : Settings)
    (e : String) (user : User)
    (habsent : (api.GetUserByUsername s st.Username).1 = none)
    (hcreate : api.CreateUser s (roUser st.Username) = (.ok user, s1))
    (hteams : api.GetTeams s1 = .error e) :
    (OnConfigurationChange.userRun api s st).value = .error e := by
  have hcfg : Heap.config { maps := [], configs := [freshConfiguration st] } 0 =
      freshConfiguration st := rfl
  simp only [OnConfigurationChange.userRun, Plugin.ensureROUser, hcfg]
  simp [freshConfiguration, habsent, hcreate, ensureROUser.teams, hteams]

/-- C13: from every plugin state with a valid stored pointer (or none),
`OnConfigurationChange` returns; it returns a non-nil error when loading the
configuration fails, when the managed user is absent and `CreateUser` fails,
when `GetTeams` fails in `ensureROUser`, when `EnsureBot` fails, and when
`GetTeams` fails in `ensureROChannels`; and whenever it returns a non-nil
error, the stored pointer, the snapshot that `getConfiguration` hands out and
its channel map are the same as before the call. -/
theorem fatal_errors_publish_nothing {σ : Type} (api : Host σ) (s : σ) (h : Heap)
    (p : Plugin) (hvalid : ∀ a, p.configuration = some a → a < h.configs.length) :
    ∃ out, Plugin.OnConfigurationChange api s h p = .ok out ∧
      ((∃ e, api.LoadPluginConfiguration s = .error e) → out.err ≠ none) ∧
      (∀ st, api.LoadPluginConfiguration s = .ok st →
        ((api.GetUserByUsername s st.Username).1 = none →
          (∃ e s1, api.CreateUser s (roUser st.Username) = (.error e, s1)) →
          out.err ≠ none) ∧
        (∀ user, (api.GetUserByUsername s st.Username).1 = some user →
          (∃ e, api.GetTeams s = .error e) → out.err ≠ none) ∧
        (∀ user s1, (api.GetUserByUsername s st.Username).1 = none →
          api.CreateUser s (roUser st.Username) = (.ok user, s1) →
          (∃ e, api.GetTeams s1 = .error e) → out.err ≠ none) ∧
        ((∃ e s2, api.EnsureBot (OnConfigurationChange.userRun api s st).host readonlyBot
            "/assets/github.svg" = (.error e, s2)) → out.err ≠ none) ∧
        (∀ botID s2, api.EnsureBot (OnConfigurationChange.userRun api s st).host readonlyBot
            "/assets/github.svg" = (.ok botID, s2) →
          (∃ e, api.GetTeams s2 = .error e) → out.err ≠ none)) ∧
      (out.err ≠ none →
        out.plugin.configuration = p.configuration ∧
        out.plugin.activeSnapshot out.heap = p.activeSnapshot h ∧
        out.plugin.activeChannelIDs out.heap = p.activeChannelIDs h) := by
  have hp : p.configuration ≠ some h.configs.length := fun e =>
    Nat.lt_irrefl _ (hvalid _ e)
  obtain ⟨out, hrun⟩ := OnConfigurationChange_returns api s h p hp
  have hshape := OnConfigurationChange_success_shape api s h p out hrun
  have huserErr : ∀ st e, api.LoadPluginConfiguration s = .ok st →
      (OnConfigurationChange.userRun api s st).value = .error e → out.err ≠ none := by
    intro st e hload hval hok
    obtain ⟨st2, id, _, _, _, hload2, huser, _⟩ := hshape hok
    rw [hload] at hload2
    injection hload2 with est
    subst est
    rw [hval] at huser
    cases huser
  refine ⟨out, hrun, ?_, ?_, ?_⟩
  · rintro ⟨e, hload⟩ hok
    obtain ⟨st, _, _, _, _, hload2, _⟩ := hshape hok
    rw [hload] at hload2
    cases hload2
  · intro st hload
    refine ⟨?_, ?_, ?_, ?_, ?_⟩
    · rintro habsent ⟨e, s1, hcreate⟩
      exact huserErr st e hload (userRun_create_error api s s1 st e habsent hcreate)
    · rintro user hfound ⟨e, hteams⟩
      exact huserErr st e hload (userRun_teams_error_found api s st e user hfound hteams)
    · rintro user s1 habsent hcreate ⟨e, hteams⟩
      exact huserErr st e hload
        (userRun_teams_error_created api s s1 st e user habsent hcreate hteams)
    · rintro ⟨e, s2, hbot⟩ hok
      obtain ⟨st2, _, _, _, _, hload2, _, hbot2, _⟩ := hshape hok
      rw [hload] at hload2
      injection hload2 with est
      subst est
      rw [hbot] at hbot2
      injection hbot2 with e1 _
      cases e1
    · rintro botID s2 hbot ⟨e, hteams⟩ hok
      obtain ⟨st2, _, _, _, _, hload2, _, hbot2, hteams2, _⟩ := hshape hok
      rw [hload] at hload2
      injection hload2 with est
      subst est
      rw [hbot] at hbot2
      injection hbot2 with _ e2
      subst e2
      rw [hteams] at hteams2
      cases hteams2
  · intro herr
    obtain ⟨hptr, x, hheap⟩ := OnConfigurationChange_error_shape api s h p out hrun herr
    refine ⟨hptr, ?_, ?_⟩
    · rw [hheap]
      exact (active_extend h p out.plugin x hptr hvalid).1
    · rw [hheap]
      exact (active_extend h p out.plugin x hptr hvalid).2

/-- C13 at a concrete state: the host cannot list its teams, the run returns an
error, and the active snapshot is still the one of `exPlugin`. -/
theorem fatal_errors_publish_nothing_witness :
    ∃ out, Plugin.OnConfigurationChange
        { exHost with GetTeams := fun _ => .error "down" } exDirectory exHeap exPlugin
        = .ok out ∧
      out.err ≠ none ∧
      out.plugin.configuration = some 0 ∧
      out.plugin.activeSnapshot out.heap = exConfig := by
  obtain ⟨out, hrun, _, hfail, hkeep⟩ := fatal_errors_publish_nothing
    { exHost with GetTeams := fun _ => .error "down" } exDirectory exHeap exPlugin
    (by decide)
  have herr : out.err ≠ none :=
    (hfail { Username := "robot", ChannelName := "announcements", TextStyle := "plain" }
      rfl).2.1 { roUser "robot" with Id := "u-robot" } (by decide) ⟨"down", rfl⟩
  obtain ⟨hptr, hsnap, _⟩ := hkeep herr
  exact ⟨out, hrun, herr, hptr, hsnap.trans (by decide)⟩

end ReadOnlyChannel

namespace ReadOnlyChannel

/-! ## Reconciliation run twice -/

/-- The tail of `ensureROUser` returns the id of the user it was given, or an
error. -/
theorem teams_value {σ : Type} (api : Host σ) (s : σ) (calls : List Call) (uid : String)
    (user : User) (id : String)
    (hval : (ensureROUser.teams api s calls uid user).value = .ok id) : id = user.Id := by
  unfold ensureROUser.teams at hval
  cases hteams : api.GetTeams s with
  | error err =>
    rw [hteams] at hval
    cases hval
  | ok teams =>
    rw [hteams] at hval
    injection hval with e
    exact e.symm

/-- The run of `ensureROUser` inside `OnConfigurationChange` when the user is
found. -/
theorem userRun_found {σ : Type} (api : Host σ) (s : σ) (st : Settings) (user : User)
    (hfound : (api.GetUserByUsername s st.Username).1 = some user) :
    OnConfigurationChange.userRun api s st =
      ensureROUser.teams api s [Call.GetUserByUsername st.Username] "" user := by
  have hcfg : Heap.config { maps := [], configs := [freshConfiguration st] } 0 =
      freshConfiguration st := rfl
  simp only [OnConfigurationChange.userRun, Plugin.ensureROUser, hcfg]
  simp [freshConfiguration, hfound]

/-- The map that the loop of `ensureROChannels` builds depends on the host
only through the channel, or none, that each lookup of a listed team returns. -/
theorem collect_congr {σ : Type} (api : Host σ) (s1 s2 : σ) (channelName : String)
    (teams : List Team) (m : GoMap)
    (hsame : ∀ T ∈ teams,
      (api.GetChannelByNameForTeamName s2 T.Name channelName false).1 =
        (api.GetChannelByNameForTeamName s1 T.Name channelName false).1) :
    teams.foldl (ensureROChannels.collect api s2 channelName) m =
      teams.foldl (ensureROChannels.collect api s1 channelName) m := by
  induction teams generalizing m with
  | nil => rfl
  | cons t rest ih =>
    rw [List.foldl_cons, List.foldl_cons]
    have ht : ensureROChannels.collect api s2 channelName m t =
        ensureROChannels.collect api s1 channelName m t := by
      simp only [ensureROChannels.collect, hsame t (List.mem_cons_self _ _)]
    rw [ht]
    exact ih _ (fun T hT => hsame T (List.mem_cons_of_mem _ hT))

/-- C16, as the claim states it, fails: on a host whose directory keeps the
same teams and channels throughout, two successive runs of
`OnConfigurationChange` both return a nil error, yet the first publishes no
entry for "team-a" and the second publishes "chan-a", because the channel
lookup of the first run returned an error, which `ensureROChannels` ignores. -/
theorem reconciliation_not_idempotent :
    Plugin.OnConfigurationChange exFlakyHost (exDirectory, 0) exEmptyHeap exFreshPlugin
      = .ok exFlakyFirstRun ∧
    exFlakyFirstRun.err = none ∧
    Plugin.OnConfigurationChange exFlakyHost exFlakyFirstRun.host exFlakyFirstRun.heap
      exFlakyFirstRun.plugin = .ok exFlakySecondRun ∧
    exFlakySecondRun.err = none ∧
    exFlakySecondRun.host.1.teams = exFlakyFirstRun.host.1.teams ∧
    exFlakySecondRun.host.1.channels = exFlakyFirstRun.host.1.channels ∧
    exFlakyFirstRun.host.1.teams = exDirectory.teams ∧
    exFlakyFirstRun.host.1.channels = exDirectory.channels ∧
    (exFlakyFirstRun.plugin.activeChannelIDs exFlakyFirstRun.heap).get "team-a" = none ∧
    (exFlakySecondRun.plugin.activeChannelIDs exFlakySecondRun.heap).get "team-a"
      = some "chan-a" ∧
    exFlakySecondRun.plugin.activeChannelIDs exFlakySecondRun.heap ≠
      exFlakyFirstRun.plugin.activeChannelIDs exFlakyFirstRun.heap := by
  refine ⟨rfl, rfl, rfl, rfl, by decide, by decide, by decide, by decide, by decide,
    by decide, ?_⟩
  intro heq
  have h1 : (exFlakyFirstRun.plugin.activeChannelIDs exFlakyFirstRun.heap).get "team-a"
      = none := by decide
  have h2 : (exFlakySecondRun.plugin.activeChannelIDs exFlakySecondRun.heap).get "team-a"
      = some "chan-a" := by decide
  rw [heq, h1] at h2
  cases h2

/-- C16, amended: two successive runs of `OnConfigurationChange` that both
return a nil error and load the same configuration publish the same
`readonlyChannelIDs` when, in the second run, `GetTeams` returns the same list
and the lookup of every listed team returns the same channel, or none, as in
the first run (a lookup error counts as none); and they publish the same
`readonlyUserID` when the second run finds, under the configured name, the user
whose id the first run published.  The host state in which a run ends is the
one in which its `ensureROChannels` listed the teams and looked the channels
up, and the one in which the next run starts.  The second run may start from
any heap and plugin state. -/
theorem reconciliation_repeatable {σ : Type} (api : Host σ)
    (s : σ) (h h2 : Heap) (p p2 : Plugin) (out1 out2 : Outcome σ)
    (hrun1 : Plugin.OnConfigurationChange api s h p = .ok out1) (hok1 : out1.err = none)
    (hinput : api.LoadPluginConfiguration out1.host = api.LoadPluginConfiguration s)
    (hrun2 : Plugin.OnConfigurationChange api out1.host h2 p2 = .ok out2)
    (hok2 : out2.err = none) :
    (api.GetTeams out2.host = api.GetTeams out1.host →
      (∀ teams, api.GetTeams out1.host = .ok teams → ∀ T ∈ teams,
        (api.GetChannelByNameForTeamName out2.host T.Name
            (out1.plugin.activeSnapshot out1.heap).ChannelName false).1 =
          (api.GetChannelByNameForTeamName out1.host T.Name
            (out1.plugin.activeSnapshot out1.heap).ChannelName false).1) →
      out2.plugin.activeChannelIDs out2.heap = out1.plugin.activeChannelIDs out1.heap) ∧
    ((∃ w, (api.GetUserByUsername out1.host
          (out1.plugin.activeSnapshot out1.heap).Username).1 = some w ∧
        w.Id = (out1.plugin.activeSnapshot out1.heap).readonlyUserID) →
      (out2.plugin.activeSnapshot out2.heap).readonlyUserID =
        (out1.plugin.activeSnapshot out1.heap).readonlyUserID) := by
  obtain ⟨st, id1, bot1, s2, teams1, hload1, huser1, hbot1, hteams1, hhost1, _, hsnap1,
    hmap1⟩ := OnConfigurationChange_success_shape api s h p out1 hrun1 hok1
  obtain ⟨st2, id2, bot2, s3, teams2, hload2, huser2, hbot2, hteams2, hhost2, _, hsnap2,
    hmap2⟩ := OnConfigurationChange_success_shape api out1.host h2 p2 out2 hrun2 hok2
  have hst : st2 = st := by
    rw [hinput, hload1] at hload2
    injection hload2 with e
    exact e.symm
  subst hst
  constructor
  · intro hteams hchannels
    rw [hhost2, hhost1] at hteams
    have hteq : teams2 = teams1 := by
      rw [hteams, hteams1] at hteams2
      injection hteams2 with e
      exact e.symm
    subst hteq
    rw [hmap2, hmap1]
    apply collect_congr
    intro T hT
    have hc := hchannels teams2 (by rw [hhost1]; exact hteams1) T hT
    rw [hsnap1, hhost2, hhost1] at hc
    exact hc
  · rintro ⟨w, hw, hwid⟩
    rw [hsnap1] at hw hwid
    rw [userRun_found api out1.host st2 w hw] at huser2
    rw [hsnap2, hsnap1]
    exact (teams_value api out1.host _ _ w id2 huser2).trans hwid

/-- C16 amended, at a concrete directory: the first run creates "robot", the
second finds it, the teams and the lookups are the same in both, and both
publish the same channel map and the same user id. -/
theorem reconciliation_repeatable_witness :
    exSecondRun.plugin.activeChannelIDs exSecondRun.heap =
      exFirstRun.plugin.activeChannelIDs exFirstRun.heap ∧
    (exSecondRun.plugin.activeSnapshot exSecondRun.heap).readonlyUserID =
      (exFirstRun.plugin.activeSnapshot exFirstRun.heap).readonlyUserID :=
  ⟨(reconciliation_repeatable exHost exDirectoryNoUser exEmptyHeap
      exFirstRun.heap exFreshPlugin exFirstRun.plugin exFirstRun exSecondRun
      rfl rfl rfl rfl rfl).1 rfl (fun _ _ _ _ => rfl),
   (reconciliation_repeatable exHost exDirectoryNoUser exEmptyHeap
      exFirstRun.heap exFreshPlugin exFirstRun.plugin exFirstRun exSecondRun
      rfl rfl rfl rfl rfl).2
      ⟨{ roUser "robot" with Id := "id-robot" }, by decide, by decide⟩⟩

end ReadOnlyChannel
